import Mathlib

/-! Verification of `script.js` (portfolio front-end script).

A shallow embedding of the theme controller, the typewriter, the timeline
progress tracker, the field validator and the contact-form submit handler of
`src/script.js`, followed by theorems about them.

Conventions of the embedding.
* A DOM attribute is an `Option String` (`none`: the attribute is absent).
* `localStorage` is a total map from keys to `Option String`.
* A JavaScript string is a Lean `String` where only its content matters; where its
  `length`, indexing or `split("")` matter (the typewriter) it is the list of its
  UTF-16 code units.
* A JavaScript number is the rational value of a finite IEEE 754 binary64 number;
  every arithmetic operation rounds its exact result to the nearest binary64 number,
  ties to even.
-/

namespace Script

/-! ## Constants (script.js:1-7) -/

def THEME_KEY : String := "luminaverse-theme"
def STANDARD_THEME_KEY : String := "luminaverse-standard-theme"

/-- The result of a property read, as far as the script can observe it: `undefined`, a
string, or a reference to an object or function. -/
inductive JSValue where
  | undefined : JSValue
  | string (s : String) : JSValue
  | object : JSValue
  deriving DecidableEq, Repr

/-- ECMAScript `ToBoolean` on the values above. -/
def JSValue.truthy : JSValue → Bool
  | .undefined => false
  | .string s => decide (s ≠ "")
  | .object => true

/-- Property names every object literal inherits from `Object.prototype` in a browser
(ECMAScript 20.1.3 and Annex B.2.2); each of them reads as a function or an object. -/
def objectPrototypeKeys : List String :=
  ["constructor", "hasOwnProperty", "isPrototypeOf", "propertyIsEnumerable",
   "toLocaleString", "toString", "valueOf", "__proto__",
   "__defineGetter__", "__defineSetter__", "__lookupGetter__", "__lookupSetter__"]

/-- The property read `themes[key]` on the object literal of script.js:3-7: the three own
properties first, then the prototype chain. -/
def themesGet (key : String) : JSValue :=
  if key = "safari" then .string "safari"
  else if key = "dark" then .string "dark"
  else if key = "luminaverse" then .string "luminaverse"
  else if key ∈ objectPrototypeKeys then .object
  else .undefined

/-! ## Preference store -/

/-- The persistent key-value store, `localStorage`. -/
abbrev Storage := String → Option String

def Storage.getItem (st : Storage) (key : String) : Option String := st key

def Storage.setItem (st : Storage) (key value : String) : Storage :=
  fun k => if k = key then some value else st k

/-- The expression `v || d` for a value `v` returned by `getItem` (null or a string). -/
def orDefault (v : Option String) (d : String) : String :=
  match v with
  | some s => if s ≠ "" then s else d
  | none => d

/-- The expression `String(b)` for a boolean `b`. -/
def jsString (b : Bool) : String := if b then "true" else "false"

/-! ## Theme controller (script.js:19-77) -/

/-- An element matched by `[data-theme-toggle]`. -/
structure ThemeButton where
  themeToggle : String
  ariaPressed : Option String
  deriving DecidableEq, Repr

/-- The element matched by `[data-theme-switch]`. -/
structure ThemeSwitch where
  dataMode : Option String
  ariaPressed : Option String
  deriving DecidableEq, Repr

/-- Everything the theme controller reads or writes. -/
structure ThemeState where
  rootTheme : Option String
  bodyTheme : Option String
  bodyClasses : List String
  themeButtons : List ThemeButton
  themeSwitch : Option ThemeSwitch
  store : Storage
  currentStandardTheme : String

/-- The value `nextTheme` of script.js:22. -/
def nextThemeOf (theme : String) : String :=
  if (themesGet theme).truthy then theme else "safari"

/-- Translation of script.js:21-43. -/
def applyTheme (s : ThemeState) (theme : String) : ThemeState :=
  let nextTheme := nextThemeOf theme
  let buttons := s.themeButtons.map fun btn =>
    { btn with ariaPressed := some (jsString (decide (btn.themeToggle = nextTheme))) }
  let sw := s.themeSwitch.map fun _ =>
    if nextTheme = "dark" ∨ nextTheme = "safari" then
      { dataMode := some (if nextTheme = "dark" then "dark" else "safari"),
        ariaPressed := some (jsString (decide (nextTheme = "dark"))) : ThemeSwitch }
    else
      { dataMode := some s.currentStandardTheme, ariaPressed := some "false" : ThemeSwitch }
  let store1 := s.store.setItem THEME_KEY nextTheme
  if nextTheme = "dark" ∨ nextTheme = "safari" then
    { s with rootTheme := some nextTheme, bodyTheme := some nextTheme,
             themeButtons := buttons, themeSwitch := sw,
             store := store1.setItem STANDARD_THEME_KEY nextTheme,
             currentStandardTheme := nextTheme }
  else
    { s with rootTheme := some nextTheme, bodyTheme := some nextTheme,
             themeButtons := buttons, themeSwitch := sw, store := store1 }

/-- Translation of script.js:45-52. -/
def loadTheme (s : ThemeState) : ThemeState :=
  match s.store.getItem THEME_KEY with
  | some stored =>
    if stored ≠ "" ∧ (themesGet stored).truthy then applyTheme s stored
    else applyTheme s s.currentStandardTheme
  | none => applyTheme s s.currentStandardTheme

/-- The synchronous part of script.js:72-77 (`classList.add`). -/
def animateThemeTransition (s : ThemeState) : ThemeState :=
  { s with bodyClasses :=
      if "theme-transition" ∈ s.bodyClasses then s.bodyClasses
      else s.bodyClasses ++ ["theme-transition"] }

/-- The click listener of the `i`-th theme button (script.js:56-60); no listener exists for
an index past the end of `themeButtons`. -/
def clickThemeButton (s : ThemeState) (i : Nat) : ThemeState :=
  match s.themeButtons.get? i with
  | some button => animateThemeTransition (applyTheme s button.themeToggle)
  | none => s

/-- The click listener of the binary switch (script.js:63-69); it is registered only when
the switch element exists. -/
def clickThemeSwitch (s : ThemeState) : ThemeState :=
  match s.themeSwitch with
  | some _ =>
    let nextTheme := if s.currentStandardTheme = "safari" then "dark" else "safari"
    animateThemeTransition (applyTheme s nextTheme)
  | none => s

/-- The page as the script finds it when it starts: markup and prior store content. -/
structure Page where
  rootTheme : Option String
  bodyTheme : Option String
  bodyClasses : List String
  themeButtons : List ThemeButton
  themeSwitch : Option ThemeSwitch
  store : Storage

/-- Evaluation of the top-level declarations, in particular script.js:19. -/
def startup (p : Page) : ThemeState :=
  { rootTheme := p.rootTheme, bodyTheme := p.bodyTheme, bodyClasses := p.bodyClasses,
    themeButtons := p.themeButtons, themeSwitch := p.themeSwitch, store := p.store,
    currentStandardTheme := orDefault (p.store.getItem STANDARD_THEME_KEY) "safari" }

/-- A page reload: the markup is parsed again, the store survives. -/
def reload (p : Page) (s : ThemeState) : ThemeState :=
  startup { p with store := s.store }

/-- The operations on the theme controller that a run of the page is made of. -/
inductive ThemeAction where
  | loadTheme : ThemeAction
  | applyTheme (theme : String) : ThemeAction
  | clickButton (i : Nat) : ThemeAction
  | clickSwitch : ThemeAction

def stepTheme (s : ThemeState) : ThemeAction → ThemeState
  | .loadTheme => loadTheme s
  | .applyTheme theme => applyTheme s theme
  | .clickButton i => clickThemeButton s i
  | .clickSwitch => clickThemeSwitch s

def runTheme (s : ThemeState) (actions : List ThemeAction) : ThemeState :=
  actions.foldl stepTheme s

/-- The standard theme, in memory and in the store, is one of the two binary themes. -/
def StandardOk (s : ThemeState) : Prop :=
  (s.currentStandardTheme = "safari" ∨ s.currentStandardTheme = "dark") ∧
  ∀ v, s.store.getItem STANDARD_THEME_KEY = some v → v = "safari" ∨ v = "dark"

/-- The store of a first visit: nothing persisted. -/
def emptyStorage : Storage := fun _ => none

/-- A page with one button per theme and a binary switch. -/
def samplePage (store : Storage) : Page :=
  { rootTheme := none, bodyTheme := none, bodyClasses := [],
    themeButtons := [⟨"safari", none⟩, ⟨"dark", none⟩, ⟨"luminaverse", none⟩],
    themeSwitch := some ⟨none, none⟩, store := store }


/-! ## Typewriter (script.js:79-95) -/

/-- The UTF-16 code units of one code point: itself below 0x10000, a surrogate pair
otherwise. -/
def utf16Units (c : Char) : List Nat :=
  if c.toNat < 0x10000 then [c.toNat]
  else [0xD800 + (c.toNat - 0x10000) / 0x400, 0xDC00 + (c.toNat - 0x10000) % 0x400]

/-- The UTF-16 code units of a text, the elements `length`, indexing and `split("")`
work on. -/
def utf16 (s : String) : List Nat := (s.data.map utf16Units).flatten

/-- The element `#typewriter`: its `data-text` attribute and its text, each a sequence of
UTF-16 code units. -/
structure TypewriterEl where
  dataText : Option (List Nat)
  textContent : List Nat
  deriving DecidableEq, Repr

/-- The expression `typewriterEl.dataset.text || ""` of script.js:81. -/
def dataTextOrEmpty (dataText : Option (List Nat)) : List Nat :=
  match dataText with
  | some t => if t ≠ [] then t else []
  | none => []

/-- The element together with the locals of `initTypewriter` captured by the interval
callback, and whether the interval is still registered. `characters` is the result of
`text.split("")`: one entry per UTF-16 code unit. -/
structure Typewriter where
  textContent : List Nat
  characters : List Nat
  index : Nat
  intervalActive : Bool
  deriving DecidableEq, Repr

/-- Translation of script.js:79-87 up to the `setInterval` call; `none` when the element is
absent (the early return). -/
def initTypewriter (el : Option TypewriterEl) : Option Typewriter :=
  match el with
  | none => none
  | some e =>
    some { textContent := [], characters := dataTextOrEmpty e.dataText,
           index := 0, intervalActive := true }

/-- The interval callback, script.js:88-93. -/
def typewriterCallback (t : Typewriter) : Typewriter :=
  if h : t.index < t.characters.length then
    { t with textContent := t.textContent ++ [t.characters.get ⟨t.index, h⟩],
             index := t.index + 1 }
  else { t with intervalActive := false }

/-- One period of the timer: the callback runs if and only if the interval has not been
cleared. -/
def typewriterTick (t : Typewriter) : Typewriter :=
  if t.intervalActive then typewriterCallback t else t

/-- The state after `k` periods of the timer. -/
def typewriterTicks (t : Typewriter) : Nat → Typewriter
  | 0 => t
  | k + 1 => typewriterTicks (typewriterTick t) k

/-! ## Numbers

A finite binary64 number is represented by its rational value. The values that arise
below are finite: `innerHeight` and `rect.top` are finite, a product with 0.6, a difference
with 120 and a quotient of two array indices do not overflow. -/

/-- Round to the nearest integer, a tie to the even neighbour. -/
def roundHalfEven (q : ℚ) : ℤ :=
  if q - ⌊q⌋ < 1 / 2 then ⌊q⌋
  else if 1 / 2 < q - ⌊q⌋ then ⌊q⌋ + 1
  else if ⌊q⌋ % 2 = 0 then ⌊q⌋
  else ⌊q⌋ + 1

/-- The binary exponent `e` of the binary64 numbers next to `x`: the one with
`2 ^ e ≤ |x| < 2 ^ (e + 1)` for a normal `x`, and -1022 in the subnormal range. -/
def float64Exponent (x : ℚ) : ℤ := max (Int.log 2 |x|) (-1022)

/-- The distance between neighbouring binary64 numbers around `x` (53-bit significand). -/
def float64Ulp (x : ℚ) : ℚ := 2 ^ (float64Exponent x - 52)

/-- The binary64 number nearest to `x`, a tie to the one with even significand: the result
IEEE 754 arithmetic returns for an operation whose exact result is `x`. -/
def roundFloat64 (x : ℚ) : ℚ := roundHalfEven (x / float64Ulp x) * float64Ulp x

/-- The operator `*` on numbers. -/
def numMul (a b : ℚ) : ℚ := roundFloat64 (a * b)

/-- The operator `-` on numbers. -/
def numSub (a b : ℚ) : ℚ := roundFloat64 (a - b)

/-- The operator `/` on numbers, for a divisor other than zero. -/
def numDiv (a b : ℚ) : ℚ := roundFloat64 (a / b)

/-- The numeric literal `0.6`: the binary64 number nearest to six tenths. -/
def literal_0_6 : ℚ := roundFloat64 (6 / 10)

/-! ## Timeline progress (script.js:124-141) -/

/-- The value `visibilityThreshold` of script.js:133,
`Math.min(viewportHeight * 0.6, viewportHeight - 120)`. -/
def visibilityThreshold (viewportHeight : ℚ) : ℚ :=
  min (numMul viewportHeight literal_0_6) (numSub viewportHeight 120)

/-- The `forEach` loop of script.js:131-137: `tops` are the `rect.top` of the items still
to visit, `index` the index of the first of them, `visibleIndex` the running value. -/
def visibleIndexLoop (viewportHeight : ℚ) : List ℚ → Nat → Int → Int
  | [], _, visibleIndex => visibleIndex
  | top :: rest, index, visibleIndex =>
    visibleIndexLoop viewportHeight rest (index + 1)
      (if top < visibilityThreshold viewportHeight then (index : Int) else visibleIndex)

/-- The value written to `--timeline-progress`, script.js:129-140. The sum
`visibleIndex + 1` and `items.length` are integers below 2 ^ 32 and exact. -/
def updateProgress (viewportHeight : ℚ) (tops : List ℚ) : ℚ :=
  let visibleIndex := visibleIndexLoop viewportHeight tops 0 (-1)
  if visibleIndex ≥ 0 then numDiv ((visibleIndex : ℚ) + 1) (tops.length : ℚ) else 0

/-- The number of items whose top edge is above the visibility threshold. -/
def countPast (viewportHeight : ℚ) (tops : List ℚ) : Nat :=
  tops.countP fun top => decide (top < visibilityThreshold viewportHeight)

/-! ## Field validation (script.js:152-167) -/

/-- ECMAScript `WhiteSpace` and `LineTerminator` code points: what `trim` strips and what
`\s` matches. -/
def isWhiteSpace (c : Char) : Bool :=
  let n := c.toNat
  n = 0x9 || n = 0xA || n = 0xB || n = 0xC || n = 0xD || n = 0x20 || n = 0xA0 ||
  n = 0x1680 || (0x2000 ≤ n && n ≤ 0x200A) || n = 0x2028 || n = 0x2029 || n = 0x202F ||
  n = 0x205F || n = 0x3000 || n = 0xFEFF

/-- The method `String.prototype.trim`. -/
def jsTrim (s : String) : String :=
  ⟨(s.data.dropWhile isWhiteSpace).rdropWhile isWhiteSpace⟩

/-- How often a regular-expression atom may repeat: exactly once, or `+`. -/
inductive Quant where
  | one : Quant
  | plus : Quant
  deriving DecidableEq, Repr

/-- A character class with a quantifier. -/
structure Atom where
  test : Char → Bool
  quant : Quant

/-- Backtracking match of a sequence of atoms at the start of `s`, the greedy branch
first. -/
def matchHere : List Atom → List Char → Bool
  | [], _ => true
  | _ :: _, [] => false
  | a :: rest, c :: cs =>
    a.test c &&
      (match a.quant with
       | .one => matchHere rest cs
       | .plus => matchHere (a :: rest) cs || matchHere rest cs)

/-- The method `RegExp.prototype.test` for a pattern without anchors and flags: a match may
start at any position. -/
def regexTest (atoms : List Atom) : List Char → Bool
  | [] => matchHere atoms []
  | c :: cs => matchHere atoms (c :: cs) || regexTest atoms cs

/-- The texts a sequence of atoms matches from first to last character: an atom taken
once matches one character of its class, an atom under `+` a non-empty run of them. -/
def Matches : List Atom → List Char → Prop
  | [], w => w = []
  | a :: rest, w =>
    match a.quant with
    | .one => ∃ c w2, w = c :: w2 ∧ a.test c = true ∧ Matches rest w2
    | .plus => ∃ u w2, u ≠ [] ∧ (∀ c ∈ u, a.test c = true) ∧ w = u ++ w2 ∧ Matches rest w2

/-- The class `[^\s@]`. -/
def notSpaceAt (c : Char) : Bool := !isWhiteSpace c && c != '@'

/-- The pattern of script.js:159, `[^\s@]+@[^\s@]+\.[^\s@]+`. -/
def emailPattern : List Atom :=
  [⟨notSpaceAt, .plus⟩, ⟨fun c => c == '@', .one⟩, ⟨notSpaceAt, .plus⟩,
   ⟨fun c => c == '.', .one⟩, ⟨notSpaceAt, .plus⟩]

/-- A form control: its current and default value, its `type` and its `aria-invalid`
attribute. -/
structure Field where
  value : String
  type : String
  defaultValue : String
  ariaInvalid : Option String
  deriving DecidableEq, Repr

/-- Translation of script.js:152-167: the returned boolean and the field afterwards. The
argument is `none` when `querySelector` found no element. -/
def validateFormField (field : Option Field) : Bool × Option Field :=
  match field with
  | none => (false, none)
  | some f =>
    if jsTrim f.value = "" then (false, some { f with ariaInvalid := some "true" })
    else if f.type = "email" ∧ regexTest emailPattern (jsTrim f.value).data = false then
      (false, some { f with ariaInvalid := some "true" })
    else (true, some { f with ariaInvalid := none })

/-- The words of the specification for the email pattern: somewhere in the text stand a
local part, an at sign, and a domain made of two parts around a dot, each part non-empty
and free of white space and at signs. -/
def ContainsEmail (s : List Char) : Prop :=
  ∃ before loc dom tld after : List Char,
    s = before ++ loc ++ '@' :: dom ++ '.' :: tld ++ after ∧
    loc ≠ [] ∧ dom ≠ [] ∧ tld ≠ [] ∧
    (∀ c ∈ loc, notSpaceAt c = true) ∧ (∀ c ∈ dom, notSpaceAt c = true) ∧
    (∀ c ∈ tld, notSpaceAt c = true)

/-! ## Contact form (script.js:169-226) -/

/-- The method `classList.add` for one token. -/
def classAdd (classes : List String) (c : String) : List String :=
  if c ∈ classes then classes else classes ++ [c]

/-- The method `classList.remove`. -/
def classRemove (classes : List String) (cs : List String) : List String :=
  classes.filter fun c => decide (c ∉ cs)

/-- The element `#formStatus`. -/
structure StatusEl where
  textContent : String
  classes : List String
  deriving DecidableEq, Repr

/-- The element matched by `[data-submit-button]`. -/
structure SubmitButton where
  disabled : Option String
  deriving DecidableEq, Repr

/-- The form, its three controls, the status element and the optional submit control. -/
structure FormState where
  nameField : Option Field
  emailField : Option Field
  messageField : Option Field
  formStatus : StatusEl
  submitButton : Option SubmitButton
  deriving DecidableEq, Repr

/-- A call of `fetch`. -/
structure Request where
  url : String
  method : String
  headers : List (String × String)
  body : String
  deriving DecidableEq, Repr

/-- How the awaited `fetch` ends: a response with its `ok` flag, or a rejection. -/
inductive FetchOutcome where
  | response (ok : Bool) : FetchOutcome
  | rejected : FetchOutcome
  deriving DecidableEq, Repr

def hexDigit (n : Nat) : Char :=
  if n < 10 then Char.ofNat (48 + n) else Char.ofNat (87 + n)

/-- ECMAScript `QuoteJSONString` for one character. -/
def jsonEscapeChar (c : Char) : String :=
  if c.toNat = 34 then "\\\""
  else if c.toNat = 92 then "\\\\"
  else if c.toNat = 8 then "\\b"
  else if c.toNat = 12 then "\\f"
  else if c.toNat = 10 then "\\n"
  else if c.toNat = 13 then "\\r"
  else if c.toNat = 9 then "\\t"
  else if c.toNat < 32 then
    "\\u00" ++ String.mk [hexDigit (c.toNat / 16), hexDigit (c.toNat % 16)]
  else c.toString

/-- ECMAScript `QuoteJSONString`. -/
def jsonQuote (s : String) : String :=
  "\"" ++ String.join (s.data.map jsonEscapeChar) ++ "\""

/-- The expression `JSON.stringify(payload)` for the object literal of script.js:193-197. -/
def jsonStringifyPayload (name email message : String) : String :=
  "\x7b\"name\":" ++ jsonQuote name ++ ",\"email\":" ++ jsonQuote email ++
    ",\"message\":" ++ jsonQuote message ++ "\x7d"

def formEndpoint : String := "https://formspree.io/f/maykgeko"
def invalidMessage : String := "Please complete all required fields with valid information."
def pendingMessage : String := "Sending…"
def successMessage : String := "Message delivered! I’ll get back to you shortly."
def failureMessage : String := "Something went wrong. Please try again in a moment."

/-- The submit listener up to the `await`, script.js:174-208: the state it leaves and the
`fetch` call it issues, if any. -/
def submitBegin (f : FormState) : FormState × Option Request :=
  let classes0 := classRemove f.formStatus.classes ["success", "error"]
  let rName := validateFormField f.nameField
  let rEmail := validateFormField f.emailField
  let rMessage := validateFormField f.messageField
  let f1 : FormState :=
    { f with nameField := rName.2, emailField := rEmail.2, messageField := rMessage.2,
             formStatus := { textContent := "", classes := classes0 } }
  if !rName.1 || !rEmail.1 || !rMessage.1 then
    ({ f1 with formStatus :=
        { textContent := invalidMessage, classes := classAdd classes0 "error" } }, none)
  else
    match f1.nameField, f1.emailField, f1.messageField with
    | some n, some e, some m =>
      let body := jsonStringifyPayload (jsTrim n.value) (jsTrim e.value) (jsTrim m.value)
      ({ f1 with
          formStatus := { textContent := pendingMessage, classes := classAdd classes0 "pending" },
          submitButton := f1.submitButton.map fun _ => { disabled := some "true" } },
       some { url := formEndpoint, method := "POST",
              headers := [("Content-Type", "application/json")], body := body })
    | _, _, _ => (f1, none)

/-- The method `form.reset()` on the three controls. -/
def resetField (field : Option Field) : Option Field :=
  field.map fun x => { x with value := x.defaultValue }

/-- The submit listener after the `await`, script.js:210-224. -/
def submitEnd (f : FormState) (outcome : FetchOutcome) : FormState :=
  let classes0 := classRemove f.formStatus.classes ["pending"]
  let f1 : FormState :=
    match outcome with
    | .response true =>
      { f with formStatus := { textContent := successMessage,
                               classes := classAdd classes0 "success" },
               nameField := resetField f.nameField, emailField := resetField f.emailField,
               messageField := resetField f.messageField }
    | _ =>
      { f with formStatus := { textContent := failureMessage,
                               classes := classAdd classes0 "error" } }
  { f1 with submitButton := f1.submitButton.map fun _ => { disabled := none } }

/-- One run of the submit listener against a network that answers `net`: the final state
and the `fetch` calls made. -/
def submitHandler (f : FormState) (net : Request → FetchOutcome) : FormState × List Request :=
  match submitBegin f with
  | (f1, some req) => (submitEnd f1 (net req), [req])
  | (f1, none) => (f1, [])


/-! ## Theme controller: what `applyTheme` writes -/

theorem theme_keys_distinct : THEME_KEY ≠ STANDARD_THEME_KEY := by decide

theorem getItem_setItem_same (st : Storage) (k v : String) :
    (st.setItem k v).getItem k = some v := by
  simp [Storage.getItem, Storage.setItem]

theorem getItem_setItem_other (st : Storage) (k k2 v : String) (h : k2 ≠ k) :
    (st.setItem k v).getItem k2 = st.getItem k2 := by
  simp [Storage.getItem, Storage.setItem, h]

theorem applyTheme_rootTheme (s : ThemeState) (theme : String) :
    (applyTheme s theme).rootTheme = some (nextThemeOf theme) := by
  unfold applyTheme
  by_cases h : nextThemeOf theme = "dark" ∨ nextThemeOf theme = "safari" <;> simp [h]

theorem applyTheme_bodyTheme (s : ThemeState) (theme : String) :
    (applyTheme s theme).bodyTheme = some (nextThemeOf theme) := by
  unfold applyTheme
  by_cases h : nextThemeOf theme = "dark" ∨ nextThemeOf theme = "safari" <;> simp [h]

theorem applyTheme_storedTheme (s : ThemeState) (theme : String) :
    (applyTheme s theme).store.getItem THEME_KEY = some (nextThemeOf theme) := by
  unfold applyTheme
  by_cases h : nextThemeOf theme = "dark" ∨ nextThemeOf theme = "safari"
  · simp only [h, if_true]
    rw [getItem_setItem_other _ _ _ _ theme_keys_distinct, getItem_setItem_same]
  · simp only [h, if_false]
    rw [getItem_setItem_same]

theorem applyTheme_themeSwitch_isSome (s : ThemeState) (theme : String) :
    (applyTheme s theme).themeSwitch.isSome = s.themeSwitch.isSome := by
  unfold applyTheme
  by_cases h : nextThemeOf theme = "dark" ∨ nextThemeOf theme = "safari" <;>
    cases hs : s.themeSwitch <;> simp [h, hs]

theorem applyTheme_standard_of_binary (s : ThemeState) (theme : String)
    (h : nextThemeOf theme = "dark" ∨ nextThemeOf theme = "safari") :
    (applyTheme s theme).currentStandardTheme = nextThemeOf theme ∧
    (applyTheme s theme).store.getItem STANDARD_THEME_KEY = some (nextThemeOf theme) := by
  unfold applyTheme
  simp only [h, if_true]
  exact ⟨trivial, getItem_setItem_same _ _ _⟩

theorem applyTheme_standard_of_other (s : ThemeState) (theme : String)
    (h : ¬ (nextThemeOf theme = "dark" ∨ nextThemeOf theme = "safari")) :
    (applyTheme s theme).currentStandardTheme = s.currentStandardTheme ∧
    (applyTheme s theme).store.getItem STANDARD_THEME_KEY =
      s.store.getItem STANDARD_THEME_KEY := by
  unfold applyTheme
  simp only [h, if_false]
  exact ⟨trivial, getItem_setItem_other _ _ _ _ (Ne.symm theme_keys_distinct)⟩

theorem nextThemeOf_safari : nextThemeOf "safari" = "safari" := by decide
theorem nextThemeOf_dark : nextThemeOf "dark" = "dark" := by decide
theorem nextThemeOf_luminaverse : nextThemeOf "luminaverse" = "luminaverse" := by decide

/-- A name that is neither an own property of `themes` nor inherited from
`Object.prototype` is replaced by the default theme. -/
theorem nextThemeOf_of_undefined (name : String) (h : themesGet name = .undefined) :
    nextThemeOf name = "safari" := by
  simp [nextThemeOf, h, JSValue.truthy]

/-- A name inherited from `Object.prototype` is kept as the theme to apply. -/
theorem nextThemeOf_of_inherited (name : String) (h : name ∈ objectPrototypeKeys) :
    nextThemeOf name = name := by
  unfold nextThemeOf themesGet
  split_ifs <;> simp_all [JSValue.truthy]

theorem animateThemeTransition_fields (s : ThemeState) :
    (animateThemeTransition s).rootTheme = s.rootTheme ∧
    (animateThemeTransition s).bodyTheme = s.bodyTheme ∧
    (animateThemeTransition s).store = s.store ∧
    (animateThemeTransition s).themeSwitch = s.themeSwitch ∧
    (animateThemeTransition s).currentStandardTheme = s.currentStandardTheme :=
  ⟨rfl, rfl, rfl, rfl, rfl⟩

/-! ## Theme controller: fallback for invalid names (C1) -/

/-- C1, the part the code fulfils: for every name that `themes[name]` reads as `undefined`
(among them the empty string and "Dark"), `applyTheme` sets the data-theme of root and body
and the persisted theme to "safari". -/
theorem applyTheme_undefined_falls_back (s : ThemeState) (name : String)
    (h : themesGet name = .undefined) :
    (applyTheme s name).rootTheme = some "safari" ∧
    (applyTheme s name).bodyTheme = some "safari" ∧
    (applyTheme s name).store.getItem THEME_KEY = some "safari" := by
  rw [applyTheme_rootTheme, applyTheme_bodyTheme, applyTheme_storedTheme,
    nextThemeOf_of_undefined name h]
  exact ⟨rfl, rfl, rfl⟩

theorem applyTheme_undefined_falls_back_witness :
    themesGet "Dark" = .undefined ∧
    (applyTheme (startup (samplePage emptyStorage)) "Dark").rootTheme = some "safari" :=
  ⟨by decide, (applyTheme_undefined_falls_back _ "Dark" (by decide)).1⟩

/-- C1 at the name "constructor": it is none of the three themes, yet `applyTheme` does not
fall back; root, body and the persisted theme all become "constructor", not "safari". -/
theorem applyTheme_constructor_not_default (s : ThemeState) :
    (applyTheme s "constructor").rootTheme = some "constructor" ∧
    (applyTheme s "constructor").bodyTheme = some "constructor" ∧
    (applyTheme s "constructor").store.getItem THEME_KEY = some "constructor" ∧
    "constructor" ≠ "safari" ∧ "constructor" ≠ "dark" ∧ "constructor" ≠ "luminaverse" := by
  rw [applyTheme_rootTheme, applyTheme_bodyTheme, applyTheme_storedTheme,
    nextThemeOf_of_inherited "constructor" (by decide)]
  exact ⟨rfl, rfl, rfl, by decide, by decide, by decide⟩

/-! ## Theme controller: the standard-theme memory (C2) -/

/-- C2: for every state, applying "dark" or "safari" makes the in-memory standard theme and
the value stored under the standard-theme key equal to the applied theme, and applying
"luminaverse" leaves both unchanged. -/
theorem applyTheme_standard_memory (s : ThemeState) (t : String) :
    ((t = "dark" ∨ t = "safari") →
      (applyTheme s t).currentStandardTheme = t ∧
      (applyTheme s t).store.getItem STANDARD_THEME_KEY = some t) ∧
    (t = "luminaverse" →
      (applyTheme s t).currentStandardTheme = s.currentStandardTheme ∧
      (applyTheme s t).store.getItem STANDARD_THEME_KEY =
        s.store.getItem STANDARD_THEME_KEY) := by
  constructor
  · intro h
    have hn : nextThemeOf t = t := by
      rcases h with rfl | rfl
      · exact nextThemeOf_dark
      · exact nextThemeOf_safari
    have := applyTheme_standard_of_binary s t (by rw [hn]; exact h)
    rwa [hn] at this
  · rintro rfl
    exact applyTheme_standard_of_other s "luminaverse" (by decide)

theorem applyTheme_standard_memory_witness :
    ((applyTheme (startup (samplePage emptyStorage)) "dark").currentStandardTheme = "dark" ∧
      (applyTheme (startup (samplePage emptyStorage)) "dark").store.getItem
        STANDARD_THEME_KEY = some "dark") ∧
    ((applyTheme (applyTheme (startup (samplePage emptyStorage)) "dark")
        "luminaverse").currentStandardTheme = "dark" ∧
      (applyTheme (applyTheme (startup (samplePage emptyStorage)) "dark")
        "luminaverse").store.getItem STANDARD_THEME_KEY = some "dark") :=
  ⟨(applyTheme_standard_memory _ "dark").1 (Or.inl rfl),
   by
    have h := (applyTheme_standard_memory
      (applyTheme (startup (samplePage emptyStorage)) "dark") "luminaverse").2 rfl
    have h0 := (applyTheme_standard_memory
      (startup (samplePage emptyStorage)) "dark").1 (Or.inl rfl)
    exact ⟨h.1.trans h0.1, h.2.trans h0.2⟩⟩

/-! ## Theme controller: the standard theme stays binary (C3) -/

theorem applyTheme_standardOk (s : ThemeState) (theme : String) (h : StandardOk s) :
    StandardOk (applyTheme s theme) := by
  by_cases hb : nextThemeOf theme = "dark" ∨ nextThemeOf theme = "safari"
  · obtain ⟨h1, h2⟩ := applyTheme_standard_of_binary s theme hb
    refine ⟨?_, ?_⟩
    · rw [h1]; exact hb.symm
    · intro v hv
      rw [h2] at hv
      cases hv
      exact hb.symm
  · obtain ⟨h1, h2⟩ := applyTheme_standard_of_other s theme hb
    refine ⟨?_, ?_⟩
    · rw [h1]; exact h.1
    · intro v hv
      rw [h2] at hv
      exact h.2 v hv

theorem animateThemeTransition_standardOk (s : ThemeState) (h : StandardOk s) :
    StandardOk (animateThemeTransition s) := h

theorem loadTheme_standardOk (s : ThemeState) (h : StandardOk s) :
    StandardOk (loadTheme s) := by
  unfold loadTheme
  split
  · split_ifs
    · exact applyTheme_standardOk _ _ h
    · exact applyTheme_standardOk _ _ h
  · exact applyTheme_standardOk _ _ h

theorem clickThemeButton_standardOk (s : ThemeState) (i : Nat) (h : StandardOk s) :
    StandardOk (clickThemeButton s i) := by
  unfold clickThemeButton
  split
  · exact animateThemeTransition_standardOk _ (applyTheme_standardOk _ _ h)
  · exact h

theorem clickThemeSwitch_standardOk (s : ThemeState) (h : StandardOk s) :
    StandardOk (clickThemeSwitch s) := by
  unfold clickThemeSwitch
  split
  · exact animateThemeTransition_standardOk _ (applyTheme_standardOk _ _ h)
  · exact h

theorem stepTheme_standardOk (s : ThemeState) (a : ThemeAction) (h : StandardOk s) :
    StandardOk (stepTheme s a) := by
  cases a
  · exact loadTheme_standardOk s h
  · exact applyTheme_standardOk s _ h
  · exact clickThemeButton_standardOk s _ h
  · exact clickThemeSwitch_standardOk s h

theorem runTheme_standardOk (actions : List ThemeAction) :
    ∀ s : ThemeState, StandardOk s → StandardOk (runTheme s actions) := by
  induction actions with
  | nil => intro s h; exact h
  | cons a rest ih =>
    intro s h
    exact ih (stepTheme s a) (stepTheme_standardOk s a h)

theorem startup_standardOk (p : Page)
    (h : p.store.getItem STANDARD_THEME_KEY = none ∨
         p.store.getItem STANDARD_THEME_KEY = some "safari" ∨
         p.store.getItem STANDARD_THEME_KEY = some "dark") :
    StandardOk (startup p) := by
  unfold StandardOk startup
  rcases h with h | h | h <;> simp [h, orDefault]

/-- C3 as stated fails: started on a store whose standard-theme key holds "luminaverse",
the script keeps "luminaverse" as its standard theme, in memory and in the store, after
`loadTheme`. -/
theorem standard_theme_luminaverse_reachable :
    (runTheme (startup (samplePage (emptyStorage.setItem STANDARD_THEME_KEY "luminaverse")))
      [ThemeAction.loadTheme]).currentStandardTheme = "luminaverse" ∧
    (runTheme (startup (samplePage (emptyStorage.setItem STANDARD_THEME_KEY "luminaverse")))
      [ThemeAction.loadTheme]).store.getItem STANDARD_THEME_KEY = some "luminaverse" := by
  decide

/-- C3, amended: when the store found at start-up holds nothing, "safari" or "dark" under
the standard-theme key, then after any sequence of `loadTheme`, `applyTheme` with arbitrary
arguments, theme-button clicks and theme-switch clicks, the variable
`currentStandardTheme` is "safari" or "dark", and so is the value stored under the
standard-theme key when one is present; neither is "luminaverse". -/
theorem standard_theme_invariant (p : Page) (actions : List ThemeAction)
    (h : p.store.getItem STANDARD_THEME_KEY = none ∨
         p.store.getItem STANDARD_THEME_KEY = some "safari" ∨
         p.store.getItem STANDARD_THEME_KEY = some "dark") :
    ((runTheme (startup p) actions).currentStandardTheme = "safari" ∨
      (runTheme (startup p) actions).currentStandardTheme = "dark") ∧
    (runTheme (startup p) actions).currentStandardTheme ≠ "luminaverse" ∧
    ∀ v, (runTheme (startup p) actions).store.getItem STANDARD_THEME_KEY = some v →
      (v = "safari" ∨ v = "dark") ∧ v ≠ "luminaverse" := by
  have hok := runTheme_standardOk actions (startup p) (startup_standardOk p h)
  refine ⟨hok.1, ?_, ?_⟩
  · rcases hok.1 with h1 | h1 <;> rw [h1] <;> decide
  · intro v hv
    have h2 := hok.2 v hv
    refine ⟨h2, ?_⟩
    rcases h2 with rfl | rfl <;> decide

theorem standard_theme_invariant_witness :
    (runTheme (startup (samplePage emptyStorage))
      [.loadTheme, .clickButton 2, .applyTheme "constructor", .clickSwitch]
      ).currentStandardTheme ≠ "luminaverse" :=
  (standard_theme_invariant (samplePage emptyStorage)
    [.loadTheme, .clickButton 2, .applyTheme "constructor", .clickSwitch]
    (Or.inl rfl)).2.1

/-! ## Theme controller: the binary switch (C4) -/

/-- C4 as stated fails: from the start-up state on a store whose standard-theme key holds
"luminaverse", two clicks on the switch end with the standard theme "dark", not with the
one held before the first click. -/
theorem switch_two_clicks_not_restored :
    (startup (samplePage
      (emptyStorage.setItem STANDARD_THEME_KEY "luminaverse"))).currentStandardTheme
      = "luminaverse" ∧
    (clickThemeSwitch (clickThemeSwitch (startup (samplePage
      (emptyStorage.setItem STANDARD_THEME_KEY "luminaverse"))))).currentStandardTheme
      = "dark" := by
  decide

theorem applyTheme_flip (u : ThemeState) (c : String) :
    (applyTheme u (if c = "safari" then "dark" else "safari")).rootTheme
      = some (if c = "safari" then "dark" else "safari") ∧
    (applyTheme u (if c = "safari" then "dark" else "safari")).bodyTheme
      = some (if c = "safari" then "dark" else "safari") ∧
    (applyTheme u (if c = "safari" then "dark" else "safari")).store.getItem THEME_KEY
      = some (if c = "safari" then "dark" else "safari") ∧
    (applyTheme u (if c = "safari" then "dark" else "safari")).currentStandardTheme
      = (if c = "safari" then "dark" else "safari") ∧
    (applyTheme u (if c = "safari" then "dark" else "safari")).store.getItem
      STANDARD_THEME_KEY = some (if c = "safari" then "dark" else "safari") := by
  by_cases h : c = "safari"
  · simp only [if_pos h]
    have hb := applyTheme_standard_of_binary u "dark" (Or.inl nextThemeOf_dark)
    rw [applyTheme_rootTheme, applyTheme_bodyTheme, applyTheme_storedTheme, hb.1, hb.2,
      nextThemeOf_dark]
    exact ⟨rfl, rfl, rfl, rfl, rfl⟩
  · simp only [if_neg h]
    have hb := applyTheme_standard_of_binary u "safari" (Or.inr nextThemeOf_safari)
    rw [applyTheme_rootTheme, applyTheme_bodyTheme, applyTheme_storedTheme, hb.1, hb.2,
      nextThemeOf_safari]
    exact ⟨rfl, rfl, rfl, rfl, rfl⟩

theorem clickThemeSwitch_eq (u : ThemeState) (w : ThemeSwitch) (hu : u.themeSwitch = some w) :
    clickThemeSwitch u = animateThemeTransition
      (applyTheme u (if u.currentStandardTheme = "safari" then "dark" else "safari")) := by
  unfold clickThemeSwitch
  rw [hu]

/-- C4, amended: in every state with a switch, whatever the active theme, a click on the
switch applies "dark" if the standard theme is "safari" and "safari" otherwise; the applied
theme `t` is "safari" or "dark", becomes the data-theme of root and body and the persisted
theme, differs from the standard theme held before the click, and is the new standard theme
in memory and in the store; when the standard theme before the first click is "safari" or
"dark", two consecutive clicks restore it. -/
theorem clickThemeSwitch_toggles (s : ThemeState) (sw : ThemeSwitch)
    (hsw : s.themeSwitch = some sw) :
    ∃ t : String,
      (s.currentStandardTheme = "safari" → t = "dark") ∧
      (s.currentStandardTheme ≠ "safari" → t = "safari") ∧
      clickThemeSwitch s = animateThemeTransition (applyTheme s t) ∧
      (t = "safari" ∨ t = "dark") ∧
      (clickThemeSwitch s).rootTheme = some t ∧
      (clickThemeSwitch s).bodyTheme = some t ∧
      (clickThemeSwitch s).store.getItem THEME_KEY = some t ∧
      t ≠ s.currentStandardTheme ∧
      (clickThemeSwitch s).currentStandardTheme = t ∧
      (clickThemeSwitch s).store.getItem STANDARD_THEME_KEY = some t ∧
      ((s.currentStandardTheme = "safari" ∨ s.currentStandardTheme = "dark") →
        (clickThemeSwitch (clickThemeSwitch s)).currentStandardTheme
          = s.currentStandardTheme) := by
  have hcst : ∀ (u : ThemeState) (w : ThemeSwitch), u.themeSwitch = some w →
      (clickThemeSwitch u).currentStandardTheme
        = (if u.currentStandardTheme = "safari" then "dark" else "safari") := by
    intro u w hu
    rw [clickThemeSwitch_eq u w hu]
    exact (applyTheme_flip u u.currentStandardTheme).2.2.2.1
  have hf := applyTheme_flip s s.currentStandardTheme
  refine ⟨if s.currentStandardTheme = "safari" then "dark" else "safari",
    fun h => by rw [if_pos h], fun h => by rw [if_neg h], clickThemeSwitch_eq s sw hsw,
    ?_, ?_, ?_, ?_, ?_, hcst s sw hsw, ?_, ?_⟩
  · split_ifs
    · exact Or.inr rfl
    · exact Or.inl rfl
  · rw [clickThemeSwitch_eq s sw hsw]
    exact hf.1
  · rw [clickThemeSwitch_eq s sw hsw]
    exact hf.2.1
  · rw [clickThemeSwitch_eq s sw hsw]
    exact hf.2.2.1
  · split_ifs with h
    · rw [h]; decide
    · exact fun h2 => h h2.symm
  · rw [clickThemeSwitch_eq s sw hsw]
    exact hf.2.2.2.2
  · intro h
    have hsome : ∃ w, (clickThemeSwitch s).themeSwitch = some w := by
      have h1 := applyTheme_themeSwitch_isSome s
        (if s.currentStandardTheme = "safari" then "dark" else "safari")
      rw [clickThemeSwitch_eq s sw hsw]
      show ∃ w, (applyTheme s _).themeSwitch = some w
      rw [hsw] at h1
      exact Option.isSome_iff_exists.mp h1
    obtain ⟨w, hw⟩ := hsome
    rw [hcst _ w hw, hcst s sw hsw]
    rcases h with h | h <;> rw [h] <;> decide

theorem clickThemeSwitch_toggles_witness :
    (startup (samplePage emptyStorage)).themeSwitch = some ⟨none, none⟩ ∧
    (clickThemeSwitch (startup (samplePage emptyStorage))).rootTheme = some "dark" ∧
    (clickThemeSwitch (clickThemeSwitch
      (startup (samplePage emptyStorage)))).currentStandardTheme = "safari" := by
  obtain ⟨t, h1, _, _, _, h5, _, _, _, _, _, h11⟩ :=
    clickThemeSwitch_toggles (startup (samplePage emptyStorage)) ⟨none, none⟩ rfl
  have ht : t = "dark" := h1 (by decide)
  rw [ht] at h5
  exact ⟨rfl, h5, h11 (Or.inl (by decide))⟩

/-! ## Theme controller: `loadTheme` (C5) -/

/-- C5, first part: a stored theme among the three valid ones becomes the active theme. -/
theorem loadTheme_of_valid_stored (s : ThemeState) (t : String)
    (ht : t = "safari" ∨ t = "dark" ∨ t = "luminaverse")
    (h : s.store.getItem THEME_KEY = some t) :
    (loadTheme s).rootTheme = some t ∧ (loadTheme s).bodyTheme = some t := by
  have hn : nextThemeOf t = t := by
    rcases ht with rfl | rfl | rfl
    · exact nextThemeOf_safari
    · exact nextThemeOf_dark
    · exact nextThemeOf_luminaverse
  have hl : loadTheme s = applyTheme s t := by
    unfold loadTheme
    rw [h]
    rcases ht with rfl | rfl | rfl <;> simp [themesGet, JSValue.truthy]
  rw [hl, applyTheme_rootTheme, applyTheme_bodyTheme, hn]
  exact ⟨rfl, rfl⟩

theorem loadTheme_of_valid_stored_witness :
    (loadTheme (startup (samplePage (emptyStorage.setItem THEME_KEY "luminaverse")))).rootTheme
      = some "luminaverse" :=
  (loadTheme_of_valid_stored _ "luminaverse" (Or.inr (Or.inr rfl)) (by decide)).1

/-- C5, last part: a valid theme applied before a reload is the active theme again after the
reload and `loadTheme`. -/
theorem applyTheme_reload_loadTheme (p : Page) (s : ThemeState) (t : String)
    (ht : t = "safari" ∨ t = "dark" ∨ t = "luminaverse") :
    (loadTheme (reload p (applyTheme s t))).rootTheme = some t ∧
    (loadTheme (reload p (applyTheme s t))).bodyTheme = some t := by
  apply loadTheme_of_valid_stored _ t ht
  have hn : nextThemeOf t = t := by
    rcases ht with rfl | rfl | rfl
    · exact nextThemeOf_safari
    · exact nextThemeOf_dark
    · exact nextThemeOf_luminaverse
  show (applyTheme s t).store.getItem THEME_KEY = some t
  rw [applyTheme_storedTheme, hn]

theorem applyTheme_reload_loadTheme_witness :
    (loadTheme (reload (samplePage emptyStorage)
      (applyTheme (startup (samplePage emptyStorage)) "dark"))).rootTheme = some "dark" :=
  (applyTheme_reload_loadTheme _ _ "dark" (Or.inr (Or.inl rfl))).1

/-- C5 at a stored value "constructor": it is none of the three themes, yet `loadTheme`
applies it instead of the current standard theme; the active theme becomes "constructor"
while the standard theme is "safari" before and after. -/
theorem loadTheme_constructor_not_standard :
    (startup (samplePage (emptyStorage.setItem THEME_KEY "constructor"))).currentStandardTheme
      = "safari" ∧
    (loadTheme (startup (samplePage
      (emptyStorage.setItem THEME_KEY "constructor")))).rootTheme = some "constructor" ∧
    (loadTheme (startup (samplePage
      (emptyStorage.setItem THEME_KEY "constructor")))).bodyTheme = some "constructor" ∧
    (loadTheme (startup (samplePage
      (emptyStorage.setItem THEME_KEY "constructor")))).currentStandardTheme = "safari" := by
  decide

/-! ## Typewriter (C9) -/

theorem typewriterTick_of_lt (cs : List Nat) (i : Nat) (h : i < cs.length) :
    typewriterTick ⟨cs.take i, cs, i, true⟩ = ⟨cs.take (i + 1), cs, i + 1, true⟩ := by
  have hpush : cs.take i ++ [cs.get ⟨i, h⟩] = cs.take (i + 1) := by
    rw [← List.concat_eq_append]
    exact List.take_concat_get cs i h
  simp only [typewriterTick, typewriterCallback, if_true, dif_pos h]
  rw [hpush]

theorem typewriterTicks_running (cs : List Nat) :
    ∀ k i : Nat, i + k ≤ cs.length →
      typewriterTicks ⟨cs.take i, cs, i, true⟩ k = ⟨cs.take (i + k), cs, i + k, true⟩ := by
  intro k
  induction k with
  | zero => intro i _; rfl
  | succ k ih =>
    intro i h
    show typewriterTicks (typewriterTick _) k = _
    rw [typewriterTick_of_lt cs i (by omega), ih (i + 1) (by omega)]
    have : i + 1 + k = i + (k + 1) := by omega
    rw [this]

theorem typewriterTicks_stopped (t : Typewriter) (h : t.intervalActive = false) :
    ∀ k : Nat, typewriterTicks t k = t := by
  intro k
  induction k with
  | zero => rfl
  | succ k ih =>
    show typewriterTicks (typewriterTick t) k = t
    have : typewriterTick t = t := by simp [typewriterTick, h]
    rw [this, ih]

theorem typewriterTicks_add (t : Typewriter) (a : Nat) :
    ∀ b : Nat, typewriterTicks t (a + b) = typewriterTicks (typewriterTicks t a) b := by
  induction a generalizing t with
  | zero => intro b; rw [Nat.zero_add]; rfl
  | succ a ih =>
    intro b
    have : a + 1 + b = (a + b) + 1 := by omega
    rw [this]
    show typewriterTicks (typewriterTick t) (a + b)
      = typewriterTicks (typewriterTicks (typewriterTick t) a) b
    exact ih (typewriterTick t) b

theorem typewriterTicks_full (cs : List Nat) :
    typewriterTicks ⟨[], cs, 0, true⟩ cs.length = ⟨cs, cs, cs.length, true⟩ := by
  have h0 := typewriterTicks_running cs cs.length 0 (by omega)
  simp only [List.take_zero, Nat.zero_add, List.take_length] at h0
  exact h0

theorem typewriterTicks_done (cs : List Nat) (m : Nat) (h : cs.length < m) :
    typewriterTicks ⟨[], cs, 0, true⟩ m = ⟨cs, cs, cs.length, false⟩ := by
  obtain ⟨d, rfl⟩ : ∃ d, m = cs.length + (1 + d) := ⟨m - cs.length - 1, by omega⟩
  rw [typewriterTicks_add, typewriterTicks_add, typewriterTicks_full]
  have h1 : typewriterTicks ⟨cs, cs, cs.length, true⟩ 1 = ⟨cs, cs, cs.length, false⟩ := by
    show typewriterTick ⟨cs, cs, cs.length, true⟩ = _
    simp [typewriterTick, typewriterCallback]
  rw [h1]
  exact typewriterTicks_stopped _ rfl d

/-- A text with a character outside the basic plane: "a", U+1F600, "b" is 4 code units
long, is complete after 4 ticks, and the fifth tick clears the timer. -/
theorem typewriter_astral :
    utf16 (String.mk ['a', Char.ofNat 0x1F600, 'b']) = [97, 0xD83D, 0xDE00, 98] ∧
    (typewriterTicks ⟨[], [97, 0xD83D, 0xDE00, 98], 0, true⟩ 3).textContent
      = [97, 0xD83D, 0xDE00] ∧
    (typewriterTicks ⟨[], [97, 0xD83D, 0xDE00, 98], 0, true⟩ 4).textContent
      = [97, 0xD83D, 0xDE00, 98] ∧
    (typewriterTicks ⟨[], [97, 0xD83D, 0xDE00, 98], 0, true⟩ 4).intervalActive = true ∧
    (typewriterTicks ⟨[], [97, 0xD83D, 0xDE00, 98], 0, true⟩ 5).intervalActive = false := by
  decide

/-- C9 as stated fails: for the text "ab" (N = 2) the element shows "ab" after 2 ticks, but
the interval is still registered then; it is cleared by the third tick. -/
theorem typewriter_timer_runs_after_N_ticks :
    initTypewriter (some ⟨some (utf16 "ab"), utf16 "old"⟩)
      = some ⟨[], utf16 "ab", 0, true⟩ ∧
    (utf16 "ab").length = 2 ∧
    (typewriterTicks ⟨[], utf16 "ab", 0, true⟩ 2).textContent = utf16 "ab" ∧
    (typewriterTicks ⟨[], utf16 "ab", 0, true⟩ 2).intervalActive = true ∧
    (typewriterTicks ⟨[], utf16 "ab", 0, true⟩ 3).intervalActive = false := by
  decide

/-- C9, amended: for every text read from the data attribute (the empty text when the
attribute is absent), of length N counted as `text.length` counts, in UTF-16 code units:
after k ticks with k ≤ N the element's text is the first k code units of the text and the
timer is still running; after N ticks the text is the full string; tick N + 1 clears the
timer, and after every number of ticks above N the text is the full string and the timer
is cleared. -/
theorem typewriter_ticks (el : TypewriterEl) :
    ∃ t : Typewriter, initTypewriter (some el) = some t ∧
      (∀ k : Nat, k ≤ (dataTextOrEmpty el.dataText).length →
        (typewriterTicks t k).textContent = (dataTextOrEmpty el.dataText).take k ∧
        (typewriterTicks t k).intervalActive = true) ∧
      (typewriterTicks t (dataTextOrEmpty el.dataText).length).textContent
        = dataTextOrEmpty el.dataText ∧
      (∀ m : Nat, (dataTextOrEmpty el.dataText).length < m →
        (typewriterTicks t m).textContent = dataTextOrEmpty el.dataText ∧
        (typewriterTicks t m).intervalActive = false) := by
  refine ⟨⟨[], dataTextOrEmpty el.dataText, 0, true⟩, rfl, ?_, ?_, ?_⟩
  · intro k hk
    have h := typewriterTicks_running (dataTextOrEmpty el.dataText) k 0
      (by rw [Nat.zero_add]; exact hk)
    simp only [List.take_zero, Nat.zero_add] at h
    rw [h]
    exact ⟨rfl, rfl⟩
  · rw [typewriterTicks_full]
  · intro m hm
    rw [typewriterTicks_done (dataTextOrEmpty el.dataText) m hm]
    exact ⟨rfl, rfl⟩

theorem typewriter_ticks_witness :
    (typewriterTicks ⟨[], [97, 0xD83D, 0xDE00, 98], 0, true⟩ 2).textContent = [97, 0xD83D] ∧
    (typewriterTicks ⟨[], [97, 0xD83D, 0xDE00, 98], 0, true⟩ 2).intervalActive = true ∧
    (typewriterTicks ⟨[], [97, 0xD83D, 0xDE00, 98], 0, true⟩ 5).textContent
      = [97, 0xD83D, 0xDE00, 98] ∧
    (typewriterTicks ⟨[], [97, 0xD83D, 0xDE00, 98], 0, true⟩ 5).intervalActive = false := by
  obtain ⟨t, h0, h1, _, h3⟩ := typewriter_ticks ⟨some [97, 0xD83D, 0xDE00, 98], []⟩
  have ht : t = ⟨[], [97, 0xD83D, 0xDE00, 98], 0, true⟩ :=
    Option.some.inj (h0.symm.trans (by decide))
  subst ht
  exact ⟨(h1 2 (by decide)).1, (h1 2 (by decide)).2, (h3 5 (by decide)).1,
    (h3 5 (by decide)).2⟩

/-! ## Rounding to binary64 -/

theorem roundHalfEven_cases (q : ℚ) :
    roundHalfEven q = ⌊q⌋ ∨ roundHalfEven q = ⌊q⌋ + 1 := by
  unfold roundHalfEven
  split_ifs <;> simp

theorem roundHalfEven_intCast (m : ℤ) : roundHalfEven (m : ℚ) = m := by
  simp [roundHalfEven]

theorem roundHalfEven_mono (a b : ℚ) (h : a ≤ b) : roundHalfEven a ≤ roundHalfEven b := by
  have hf : ⌊a⌋ ≤ ⌊b⌋ := Int.floor_mono h
  rcases lt_or_eq_of_le hf with hlt | heq
  · have h1 : roundHalfEven a ≤ ⌊a⌋ + 1 := by
      rcases roundHalfEven_cases a with h | h <;> omega
    have h2 : ⌊b⌋ ≤ roundHalfEven b := by
      rcases roundHalfEven_cases b with h | h <;> omega
    omega
  · unfold roundHalfEven
    rw [heq]
    split_ifs <;> first | omega | (exfalso; linarith)

theorem roundHalfEven_of_near (q : ℚ) (m : ℤ) (h : |q - m| < 1 / 2) :
    roundHalfEven q = m := by
  obtain ⟨hl, hr⟩ := abs_lt.mp h
  have hf1 := Int.floor_le q
  have hf2 := Int.lt_floor_add_one q
  have h1 : ⌊q⌋ < m + 1 := by
    have : ((⌊q⌋ : ℤ) : ℚ) < ((m + 1 : ℤ) : ℚ) := by push_cast; linarith
    exact_mod_cast this
  have h2 : m < ⌊q⌋ + 2 := by
    have : ((m : ℤ) : ℚ) < ((⌊q⌋ + 2 : ℤ) : ℚ) := by push_cast; linarith
    exact_mod_cast this
  have hcases : ⌊q⌋ = m ∨ ⌊q⌋ = m - 1 := by omega
  rcases hcases with hfl | hfl
  · unfold roundHalfEven
    rw [hfl]
    split_ifs <;> omega
  · unfold roundHalfEven
    rw [hfl]
    push_cast
    split_ifs <;> first | omega | (exfalso; linarith)

theorem roundHalfEven_tie_even (q : ℚ) (m : ℤ) (h : q = m + 1 / 2) (heven : m % 2 = 0) :
    roundHalfEven q = m := by
  have hfl : ⌊q⌋ = m := by
    rw [Int.floor_eq_iff]
    constructor <;> linarith
  unfold roundHalfEven
  rw [hfl]
  split_ifs <;> first | omega | (exfalso; linarith)

theorem float64Ulp_pos (x : ℚ) : 0 < float64Ulp x := by
  unfold float64Ulp
  positivity

theorem float64Exponent_eq (x : ℚ) (e : ℤ) (he : -1022 ≤ e) (h1 : (2 : ℚ) ^ e ≤ |x|)
    (h2 : |x| < (2 : ℚ) ^ (e + 1)) : float64Exponent x = e := by
  have hpos : 0 < |x| := lt_of_lt_of_le (by positivity) h1
  have hlog : Int.log 2 |x| = e := by
    have ha : e ≤ Int.log 2 |x| := by
      rw [← Int.zpow_le_iff_le_log (by norm_num) hpos]
      simpa using h1
    have hb : Int.log 2 |x| < e + 1 := by
      rw [← Int.lt_zpow_iff_log_lt (by norm_num) hpos]
      simpa using h2
    omega
  unfold float64Exponent
  rw [hlog]
  exact max_eq_left he

theorem roundFloat64_of_near (x : ℚ) (e m : ℤ) (he : -1022 ≤ e) (h1 : (2 : ℚ) ^ e ≤ |x|)
    (h2 : |x| < (2 : ℚ) ^ (e + 1)) (hm : |x / 2 ^ (e - 52) - m| < 1 / 2) :
    roundFloat64 x = m * 2 ^ (e - 52) := by
  unfold roundFloat64 float64Ulp
  rw [float64Exponent_eq x e he h1 h2, roundHalfEven_of_near _ m hm]

theorem roundFloat64_of_tie_even (x : ℚ) (e m : ℤ) (he : -1022 ≤ e)
    (h1 : (2 : ℚ) ^ e ≤ |x|) (h2 : |x| < (2 : ℚ) ^ (e + 1))
    (hm : x / 2 ^ (e - 52) = m + 1 / 2) (heven : m % 2 = 0) :
    roundFloat64 x = m * 2 ^ (e - 52) := by
  unfold roundFloat64 float64Ulp
  rw [float64Exponent_eq x e he h1 h2, roundHalfEven_tie_even _ m hm heven]

theorem roundFloat64_zero : roundFloat64 0 = 0 := by
  unfold roundFloat64
  rw [zero_div]
  have := roundHalfEven_intCast 0
  rw [Int.cast_zero] at this
  rw [this]
  simp

theorem roundFloat64_nonneg (x : ℚ) (h : 0 ≤ x) : 0 ≤ roundFloat64 x := by
  unfold roundFloat64
  have hu := float64Ulp_pos x
  have h0 : roundHalfEven 0 ≤ roundHalfEven (x / float64Ulp x) :=
    roundHalfEven_mono _ _ (div_nonneg h (le_of_lt hu))
  have hz := roundHalfEven_intCast 0
  rw [Int.cast_zero] at hz
  rw [hz] at h0
  have : (0 : ℚ) ≤ (roundHalfEven (x / float64Ulp x) : ℚ) := by exact_mod_cast h0
  exact mul_nonneg this (le_of_lt hu)

theorem roundFloat64_le_one (x : ℚ) (h : x ≤ 1) : roundFloat64 x ≤ 1 := by
  have hu := float64Ulp_pos x
  rcases le_or_lt x 0 with hx | hx
  · unfold roundFloat64
    have h0 : roundHalfEven (x / float64Ulp x) ≤ roundHalfEven 0 :=
      roundHalfEven_mono _ _ (div_nonpos_of_nonpos_of_nonneg hx (le_of_lt hu))
    have hz := roundHalfEven_intCast 0
    rw [Int.cast_zero] at hz
    rw [hz] at h0
    have h0q : (roundHalfEven (x / float64Ulp x) : ℚ) ≤ 0 := by exact_mod_cast h0
    have : (roundHalfEven (x / float64Ulp x) : ℚ) * float64Ulp x ≤ 0 :=
      mul_nonpos_of_nonpos_of_nonneg h0q (le_of_lt hu)
    linarith
  · have habs : |x| = x := abs_of_pos hx
    have hlog : Int.log 2 |x| ≤ 0 := by
      rw [habs]
      have := Int.log_mono_right (b := 2) hx h
      rwa [Int.log_one_right] at this
    have hE : float64Exponent x ≤ 0 := by
      unfold float64Exponent
      exact max_le hlog (by norm_num)
    obtain ⟨n, hn⟩ : ∃ n : ℕ, (n : ℤ) = 52 - float64Exponent x :=
      ⟨(52 - float64Exponent x).toNat, Int.toNat_of_nonneg (by omega)⟩
    have hinv : (1 : ℚ) / float64Ulp x = (((2 : ℤ) ^ n : ℤ) : ℚ) := by
      unfold float64Ulp
      rw [one_div, ← zpow_neg]
      have : -(float64Exponent x - 52) = (n : ℤ) := by omega
      rw [this, zpow_natCast]
      push_cast
      rfl
    have hle : x / float64Ulp x ≤ (((2 : ℤ) ^ n : ℤ) : ℚ) := by
      rw [← hinv]
      exact div_le_div_of_nonneg_right h (le_of_lt hu)
    have hr := roundHalfEven_mono _ _ hle
    rw [roundHalfEven_intCast] at hr
    have hrq : (roundHalfEven (x / float64Ulp x) : ℚ) ≤ (((2 : ℤ) ^ n : ℤ) : ℚ) := by
      exact_mod_cast hr
    unfold roundFloat64
    calc (roundHalfEven (x / float64Ulp x) : ℚ) * float64Ulp x
        ≤ (((2 : ℤ) ^ n : ℤ) : ℚ) * float64Ulp x :=
          mul_le_mul_of_nonneg_right hrq (le_of_lt hu)
      _ = 1 := by
          rw [← hinv]
          field_simp

/-- The literal 0.6 denotes 5404319552844595 / 2 ^ 53, just below six tenths. -/
theorem literal_0_6_eq : literal_0_6 = 5404319552844595 / 2 ^ 53 := by
  unfold literal_0_6
  rw [roundFloat64_of_near (6 / 10) (-1) 5404319552844595 (by norm_num) (by norm_num [abs_of_pos])
    (by norm_num [abs_of_pos]) (by norm_num [abs_lt])]
  norm_num

theorem roundFloat64_one : roundFloat64 1 = 1 := by
  rw [roundFloat64_of_near 1 0 (2 ^ 52) (by norm_num) (by norm_num) (by norm_num)
    (by norm_num)]
  norm_num

theorem roundFloat64_half : roundFloat64 (1 / 2) = 1 / 2 := by
  rw [roundFloat64_of_near (1 / 2) (-1) (2 ^ 52) (by norm_num) (by norm_num [abs_of_pos])
    (by norm_num [abs_of_pos]) (by norm_num)]
  norm_num

/-- One third rounds to 0.3333333333333333, that is 6004799503160661 / 2 ^ 54. -/
theorem roundFloat64_third : roundFloat64 (1 / 3) = 6004799503160661 / 2 ^ 54 := by
  rw [roundFloat64_of_near (1 / 3) (-2) 6004799503160661 (by norm_num)
    (by norm_num [abs_of_pos]) (by norm_num [abs_of_pos]) (by norm_num [abs_lt])]
  norm_num

/-! ## Timeline progress (C10) -/

theorem visibleIndexLoop_append (vh : ℚ) (a b : List ℚ) :
    ∀ (i : Nat) (v : Int), visibleIndexLoop vh (a ++ b) i v
      = visibleIndexLoop vh b (i + a.length) (visibleIndexLoop vh a i v) := by
  induction a with
  | nil => intro i v; rfl
  | cons x a ih =>
    intro i v
    show visibleIndexLoop vh (a ++ b) (i + 1) _
      = visibleIndexLoop vh b (i + (a.length + 1)) (visibleIndexLoop vh a (i + 1) _)
    rw [ih]
    have : i + 1 + a.length = i + (a.length + 1) := by omega
    rw [this]

theorem visibleIndexLoop_none (vh : ℚ) (b : List ℚ)
    (h : ∀ y ∈ b, ¬ y < visibilityThreshold vh) :
    ∀ (i : Nat) (v : Int), visibleIndexLoop vh b i v = v := by
  induction b with
  | nil => intro i v; rfl
  | cons y b ih =>
    intro i v
    simp only [visibleIndexLoop]
    rw [if_neg (h y (List.mem_cons_self y b))]
    exact ih (fun z hz => h z (List.mem_cons_of_mem y hz)) (i + 1) v

theorem visibleIndexLoop_last (vh : ℚ) (a b : List ℚ) (x : ℚ)
    (hx : x < visibilityThreshold vh) (hb : ∀ y ∈ b, ¬ y < visibilityThreshold vh)
    (i : Nat) (v : Int) :
    visibleIndexLoop vh (a ++ x :: b) i v = ((i + a.length : Nat) : Int) := by
  rw [visibleIndexLoop_append]
  simp only [visibleIndexLoop]
  rw [if_pos hx]
  exact visibleIndexLoop_none vh b hb _ _

theorem visibleIndexLoop_bounds (vh : ℚ) (tops : List ℚ) :
    ∀ (i : Nat) (v : Int), -1 ≤ v → v < i →
      -1 ≤ visibleIndexLoop vh tops i v ∧
      visibleIndexLoop vh tops i v < ((i + tops.length : Nat) : Int) := by
  induction tops with
  | nil => intro i v h1 h2; exact ⟨h1, by simpa using h2⟩
  | cons x tops ih =>
    intro i v h1 h2
    simp only [visibleIndexLoop, List.length_cons]
    have hlen : i + (tops.length + 1) = (i + 1) + tops.length := by omega
    rw [hlen]
    by_cases hx : x < visibilityThreshold vh
    · rw [if_pos hx]
      exact ih (i + 1) i (by omega) (by push_cast; omega)
    · rw [if_neg hx]
      exact ih (i + 1) v h1 (by push_cast; omega)

theorem countPast_append (vh : ℚ) (a b : List ℚ) :
    countPast vh (a ++ b) = countPast vh a + countPast vh b := by
  simp [countPast, List.countP_append]

theorem countPast_all (vh : ℚ) (a : List ℚ) (h : ∀ x ∈ a, x < visibilityThreshold vh) :
    countPast vh a = a.length := by
  unfold countPast
  rw [List.countP_eq_length]
  intro x hx
  simpa using h x hx

theorem countPast_none (vh : ℚ) (b : List ℚ) (h : ∀ y ∈ b, ¬ y < visibilityThreshold vh) :
    countPast vh b = 0 := by
  unfold countPast
  rw [List.countP_eq_zero]
  intro y hy
  simpa using h y hy

theorem updateProgress_range (vh : ℚ) (tops : List ℚ) :
    0 ≤ updateProgress vh tops ∧ updateProgress vh tops ≤ 1 := by
  unfold updateProgress
  obtain ⟨h1, h2⟩ := visibleIndexLoop_bounds vh tops 0 (-1) (le_refl _) (by norm_num)
  simp only [Nat.zero_add] at h2
  set v := visibleIndexLoop vh tops 0 (-1) with hv
  by_cases hge : v ≥ 0
  · simp only [hge, if_true]
    have hvq : (0 : ℚ) ≤ (v : ℚ) := by exact_mod_cast hge
    have hle : (v : ℚ) + 1 ≤ (tops.length : ℚ) := by
      have : v + 1 ≤ (tops.length : Int) := by omega
      exact_mod_cast this
    have hpos : (0 : ℚ) < (tops.length : ℚ) := by linarith
    unfold numDiv
    exact ⟨roundFloat64_nonneg _ (div_nonneg (by linarith) (le_of_lt hpos)),
      roundFloat64_le_one _ ((div_le_one hpos).mpr hle)⟩
  · simp only [hge, if_false]
    exact ⟨le_refl _, zero_le_one⟩

theorem updateProgress_highest (vh : ℚ) (a b : List ℚ) (x : ℚ)
    (hx : x < visibilityThreshold vh) (hb : ∀ y ∈ b, ¬ y < visibilityThreshold vh) :
    updateProgress vh (a ++ x :: b)
      = numDiv ((a.length : ℚ) + 1) ((a ++ x :: b).length : ℚ) := by
  unfold updateProgress
  rw [visibleIndexLoop_last vh a b x hx hb 0 (-1)]
  simp

theorem updateProgress_none (vh : ℚ) (tops : List ℚ)
    (h : ∀ y ∈ tops, ¬ y < visibilityThreshold vh) : updateProgress vh tops = 0 := by
  unfold updateProgress
  rw [visibleIndexLoop_none vh tops h 0 (-1)]
  simp

theorem updateProgress_initial_segment (vh : ℚ) (a b : List ℚ)
    (ha : ∀ x ∈ a, x < visibilityThreshold vh) (hb : ∀ y ∈ b, ¬ y < visibilityThreshold vh) :
    updateProgress vh (a ++ b)
      = numDiv (countPast vh (a ++ b) : ℚ) ((a ++ b).length : ℚ) := by
  rw [countPast_append, countPast_all vh a ha, countPast_none vh b hb, Nat.add_zero]
  rcases List.eq_nil_or_concat a with rfl | ⟨a0, x, rfl⟩
  · rw [List.nil_append, updateProgress_none vh b hb]
    simp [numDiv, roundFloat64_zero]
  · rw [List.concat_eq_append] at ha ⊢
    have hxm : x < visibilityThreshold vh := ha x (by simp)
    have : a0 ++ [x] ++ b = a0 ++ x :: b := by simp
    rw [this, updateProgress_highest vh a0 b x hxm hb]
    simp

/-! ### Values of the threshold -/

/-- At viewport height 1000 the product with 0.6 rounds to 600 and the threshold is 600. -/
theorem visibilityThreshold_1000 : visibilityThreshold 1000 = 600 := by
  have hmul : numMul 1000 literal_0_6 = 600 := by
    unfold numMul
    rw [literal_0_6_eq, roundFloat64_of_near _ 9 5277655813324800 (by norm_num)
      (by norm_num [abs_of_pos]) (by norm_num [abs_of_pos]) (by norm_num [abs_lt])]
    norm_num
  have hsub : numSub 1000 120 = 880 := by
    unfold numSub
    rw [roundFloat64_of_near _ 9 (880 * 2 ^ 43) (by norm_num)
      (by norm_num [abs_of_pos]) (by norm_num [abs_of_pos]) (by norm_num)]
    norm_num
  unfold visibilityThreshold
  rw [hmul, hsub]
  norm_num

/-- At viewport height 768 the exact product with the literal lies half way between two
binary64 numbers and rounds to the lower one, 460.79999999999995; this is the threshold. -/
theorem visibilityThreshold_768 : visibilityThreshold 768 = 8106479329266892 / 2 ^ 44 := by
  have hmul : numMul 768 literal_0_6 = 8106479329266892 / 2 ^ 44 := by
    unfold numMul
    rw [literal_0_6_eq, roundFloat64_of_tie_even _ 8 8106479329266892 (by norm_num)
      (by norm_num [abs_of_pos]) (by norm_num [abs_of_pos]) (by norm_num) (by norm_num)]
    norm_num
  have hsub : numSub 768 120 = 648 := by
    unfold numSub
    rw [roundFloat64_of_near _ 9 (648 * 2 ^ 43) (by norm_num)
      (by norm_num [abs_of_pos]) (by norm_num [abs_of_pos]) (by norm_num)]
    norm_num
  unfold visibilityThreshold
  rw [hmul, hsub]
  norm_num

/-- An item whose top is the binary64 number 460.79999999999995 is not above the threshold
at viewport height 768, although it is below 768 times six tenths: progress 0. -/
theorem updateProgress_at_rounded_threshold :
    updateProgress 768 [8106479329266892 / 2 ^ 44] = 0 ∧
    (8106479329266892 / 2 ^ 44 : ℚ) < 768 * (6 / 10) := by
  refine ⟨updateProgress_none _ _ ?_, by norm_num⟩
  intro y hy
  rw [List.mem_singleton.mp hy, visibilityThreshold_768]
  exact lt_irrefl _

/-- With 3 items of which the first alone is above the threshold, the value written is the
binary64 number 0.3333333333333333, not the rational one third. -/
theorem updateProgress_third :
    updateProgress 1000 [0, 1000, 1000] = 6004799503160661 / 2 ^ 54 ∧
    updateProgress 1000 [0, 1000, 1000] ≠ 1 / 3 := by
  have h : updateProgress 1000 [0, 1000, 1000] = 6004799503160661 / 2 ^ 54 := by
    have := updateProgress_highest 1000 [] [1000, 1000] 0
      (by rw [visibilityThreshold_1000]; norm_num)
      (by
        intro y hy
        rw [visibilityThreshold_1000]
        simp at hy
        subst hy
        norm_num)
    rw [List.nil_append] at this
    rw [this]
    unfold numDiv
    norm_num
    exact roundFloat64_third
  refine ⟨h, ?_⟩
  rw [h]
  norm_num

/-! ### The claim -/

/-- C10 as stated fails: with 4 items of which exactly the last 2 are above the threshold
(viewport height 1000, threshold 600, tops 1000, 1000, 0, 0) the progress written is 1,
not 2 / 4. -/
theorem updateProgress_not_count :
    updateProgress 1000 [1000, 1000, 0, 0] = 1 ∧
    countPast 1000 [1000, 1000, 0, 0] = 2 ∧
    numDiv (countPast 1000 [1000, 1000, 0, 0] : ℚ) 4 = 1 / 2 ∧
    updateProgress 1000 [1000, 1000, 0, 0]
      ≠ numDiv (countPast 1000 [1000, 1000, 0, 0] : ℚ) 4 := by
  have h1 : updateProgress 1000 [1000, 1000, 0, 0] = 1 := by
    have := updateProgress_highest 1000 [1000, 1000, 0] [] 0
      (by rw [visibilityThreshold_1000]; norm_num) (by simp)
    have hl : ([1000, 1000, 0] : List ℚ) ++ [0] = [1000, 1000, 0, 0] := rfl
    rw [hl] at this
    rw [this]
    unfold numDiv
    norm_num
    exact roundFloat64_one
  have h2 : countPast 1000 [1000, 1000, 0, 0] = 2 := by
    unfold countPast
    rw [visibilityThreshold_1000]
    norm_num [List.countP_cons]
  have h3 : numDiv (countPast 1000 [1000, 1000, 0, 0] : ℚ) 4 = 1 / 2 := by
    rw [h2]
    unfold numDiv
    norm_num
    exact roundFloat64_half
  refine ⟨h1, h2, h3, ?_⟩
  rw [h1, h3]
  norm_num

/-- C10, amended: for every non-empty list of n items and every viewport height, with the
threshold min(viewport height * 0.6, viewport height - 120) and the quotient computed as
the script computes them, the progress written by `updateProgress` lies in [0,1]; it is 0
when no item has its top edge above the threshold; otherwise it is
(index of the last item above the threshold + 1) / n; it equals the number of items above
the threshold divided by n whenever these items are the first ones of the list; in
particular with 4 items it is 0 when none is past the threshold, 1 when all 4 are, and 0.5
when exactly the first 2 are. -/
theorem updateProgress_spec (vh : ℚ) (tops : List ℚ) (hne : tops ≠ []) :
    (0 ≤ updateProgress vh tops ∧ updateProgress vh tops ≤ 1) ∧
    ((∀ y ∈ tops, ¬ y < visibilityThreshold vh) → updateProgress vh tops = 0) ∧
    (∀ (a b : List ℚ) (x : ℚ), tops = a ++ x :: b → x < visibilityThreshold vh →
      (∀ y ∈ b, ¬ y < visibilityThreshold vh) →
      updateProgress vh tops = numDiv ((a.length : ℚ) + 1) (tops.length : ℚ)) ∧
    (∀ a b : List ℚ, tops = a ++ b → (∀ x ∈ a, x < visibilityThreshold vh) →
      (∀ y ∈ b, ¬ y < visibilityThreshold vh) →
      updateProgress vh tops = numDiv (countPast vh tops : ℚ) (tops.length : ℚ)) ∧
    (tops.length = 4 →
      (countPast vh tops = 0 → updateProgress vh tops = 0) ∧
      (countPast vh tops = 4 → updateProgress vh tops = 1) ∧
      (∀ a b : List ℚ, tops = a ++ b → a.length = 2 →
        (∀ x ∈ a, x < visibilityThreshold vh) → (∀ y ∈ b, ¬ y < visibilityThreshold vh) →
        updateProgress vh tops = 1 / 2)) := by
  refine ⟨updateProgress_range vh tops, updateProgress_none vh tops, ?_, ?_, ?_⟩
  · rintro a b x rfl hx hb
    exact updateProgress_highest vh a b x hx hb
  · rintro a b rfl ha hb
    exact updateProgress_initial_segment vh a b ha hb
  · intro h4
    refine ⟨?_, ?_, ?_⟩
    · intro h0
      apply updateProgress_none
      intro y hy
      have := (List.countP_eq_zero.mp h0) y hy
      simpa using this
    · intro hall
      have hall2 : ∀ y ∈ tops, y < visibilityThreshold vh := by
        have h := hall
        rw [← h4] at h
        intro y hy
        have := (List.countP_eq_length.mp h) y hy
        simpa using this
      have := updateProgress_initial_segment vh tops [] hall2 (by simp)
      rw [List.append_nil] at this
      rw [this, countPast_all vh tops hall2, h4]
      unfold numDiv
      norm_num
      exact roundFloat64_one
    · rintro a b rfl ha2 ha hb
      rw [updateProgress_initial_segment vh a b ha hb, countPast_append,
        countPast_all vh a ha, countPast_none vh b hb, h4, ha2]
      unfold numDiv
      norm_num
      exact roundFloat64_half

theorem updateProgress_spec_witness :
    ([0, 0, 1000, 1000] : List ℚ) ≠ [] ∧ updateProgress 1000 [0, 0, 1000, 1000] = 1 / 2 :=
  ⟨by decide,
   (updateProgress_spec 1000 [0, 0, 1000, 1000] (by decide)).2.2.2.2 rfl |>.2.2
     [0, 0] [1000, 1000] rfl rfl
     (by intro x hx; simp at hx; subst hx; rw [visibilityThreshold_1000]; norm_num)
     (by intro y hy; simp at hy; subst hy; rw [visibilityThreshold_1000]; norm_num)⟩

/-! ## Field validation (C6) -/

theorem matchHere_iff : ∀ (s : List Char) (atoms : List Atom),
    matchHere atoms s = true ↔ ∃ w r, s = w ++ r ∧ Matches atoms w := by
  intro s
  induction s with
  | nil =>
    intro atoms
    cases atoms with
    | nil => simp [matchHere, Matches]
    | cons a rest =>
      simp only [matchHere, Bool.false_eq_true, false_iff]
      rintro ⟨w, r, h, hm⟩
      have hw : w = [] := (List.append_eq_nil.mp h.symm).1
      subst hw
      unfold Matches at hm
      cases hq : a.quant <;> rw [hq] at hm
      · obtain ⟨c, w2, h1, _⟩ := hm
        cases h1
      · obtain ⟨u, w2, hu, _, h1, _⟩ := hm
        exact hu (List.append_eq_nil.mp h1.symm).1
  | cons c cs ih =>
    intro atoms
    cases atoms with
    | nil => exact ⟨fun _ => ⟨[], c :: cs, rfl, rfl⟩, fun _ => rfl⟩
    | cons a rest =>
      cases hq : a.quant
      · -- exactly one character
        simp only [matchHere, hq, Bool.and_eq_true, ih rest]
        constructor
        · rintro ⟨ht, w, r, h, hm⟩
          refine ⟨c :: w, r, by rw [h]; rfl, ?_⟩
          unfold Matches
          rw [hq]
          exact ⟨c, w, rfl, ht, hm⟩
        · rintro ⟨w, r, h, hm⟩
          unfold Matches at hm
          rw [hq] at hm
          obtain ⟨c2, w2, rfl, ht, hm2⟩ := hm
          rw [List.cons_append] at h
          obtain ⟨rfl, rfl⟩ := List.cons.inj h
          exact ⟨ht, w2, r, rfl, hm2⟩
      · -- a non-empty run
        simp only [matchHere, hq, Bool.and_eq_true, Bool.or_eq_true, ih rest, ih (a :: rest)]
        constructor
        · rintro ⟨ht, ⟨w, r, h, hm⟩ | ⟨w, r, h, hm⟩⟩
          · unfold Matches at hm
            rw [hq] at hm
            obtain ⟨u, w2, _, hall, rfl, hm2⟩ := hm
            refine ⟨(c :: u) ++ w2, r, by rw [h]; simp, ?_⟩
            unfold Matches
            rw [hq]
            refine ⟨c :: u, w2, by simp, ?_, rfl, hm2⟩
            intro x hx
            rcases List.mem_cons.mp hx with rfl | hx
            · exact ht
            · exact hall x hx
          · refine ⟨c :: w, r, by rw [h]; rfl, ?_⟩
            unfold Matches
            rw [hq]
            refine ⟨[c], w, by simp, ?_, rfl, hm⟩
            intro x hx
            rw [List.mem_singleton.mp hx]
            exact ht
        · rintro ⟨w, r, h, hm⟩
          unfold Matches at hm
          rw [hq] at hm
          obtain ⟨u, w2, hu, hall, rfl, hm2⟩ := hm
          cases u with
          | nil => exact absurd rfl hu
          | cons c2 u2 =>
            simp only [List.cons_append, List.append_assoc] at h
            obtain ⟨rfl, rfl⟩ := List.cons.inj h
            refine ⟨hall c (List.mem_cons_self _ _), ?_⟩
            cases u2 with
            | nil => exact Or.inr ⟨w2, r, by simp, hm2⟩
            | cons c3 u3 =>
              refine Or.inl ⟨(c3 :: u3) ++ w2, r, by simp, ?_⟩
              unfold Matches
              rw [hq]
              exact ⟨c3 :: u3, w2, by simp, fun x hx => hall x (List.mem_cons_of_mem _ hx),
                rfl, hm2⟩

theorem regexTest_iff (atoms : List Atom) : ∀ s : List Char,
    regexTest atoms s = true ↔ ∃ p w r, s = p ++ w ++ r ∧ Matches atoms w := by
  intro s
  induction s with
  | nil =>
    simp only [regexTest, matchHere_iff]
    constructor
    · rintro ⟨w, r, h, hm⟩
      exact ⟨[], w, r, by simpa using h, hm⟩
    · rintro ⟨p, w, r, h, hm⟩
      have hp : p = [] := by
        have := List.append_eq_nil.mp h.symm
        exact (List.append_eq_nil.mp this.1).1
      subst hp
      exact ⟨w, r, by simpa using h, hm⟩
  | cons c cs ih =>
    simp only [regexTest, Bool.or_eq_true, matchHere_iff, ih]
    constructor
    · rintro (⟨w, r, h, hm⟩ | ⟨p, w, r, h, hm⟩)
      · exact ⟨[], w, r, by simpa using h, hm⟩
      · exact ⟨c :: p, w, r, by rw [h]; simp, hm⟩
    · rintro ⟨p, w, r, h, hm⟩
      cases p with
      | nil => exact Or.inl ⟨w, r, by simpa using h, hm⟩
      | cons c2 p2 =>
        simp only [List.cons_append] at h
        obtain ⟨rfl, rfl⟩ := List.cons.inj h
        exact Or.inr ⟨p2, w, r, by simp, hm⟩

theorem matches_emailPattern (w : List Char) :
    Matches emailPattern w ↔
      ∃ loc dom tld : List Char, w = loc ++ '@' :: dom ++ '.' :: tld ∧
        loc ≠ [] ∧ dom ≠ [] ∧ tld ≠ [] ∧
        (∀ c ∈ loc, notSpaceAt c = true) ∧ (∀ c ∈ dom, notSpaceAt c = true) ∧
        (∀ c ∈ tld, notSpaceAt c = true) := by
  simp only [emailPattern, Matches, beq_iff_eq]
  constructor
  · rintro ⟨loc, w2, hl, hla, rfl, c1, w3, rfl, rfl, dom, w4, hd, hda, rfl, c2, w5, rfl, rfl,
      tld, w6, ht, hta, rfl, rfl⟩
    exact ⟨loc, dom, tld, by simp, hl, hd, ht, hla, hda, hta⟩
  · rintro ⟨loc, dom, tld, rfl, hl, hd, ht, hla, hda, hta⟩
    exact ⟨loc, '@' :: dom ++ '.' :: tld, hl, hla, by simp, '@', dom ++ '.' :: tld, rfl, rfl,
      dom, '.' :: tld, hd, hda, rfl, '.', tld, rfl, rfl, tld, [], ht, hta, by simp, rfl⟩

/-- The test of script.js:160 succeeds exactly on the texts that contain a local part, an
at sign and a dotted domain. -/
theorem regexTest_emailPattern_iff (s : List Char) :
    regexTest emailPattern s = true ↔ ContainsEmail s := by
  rw [regexTest_iff]
  constructor
  · rintro ⟨p, w, r, rfl, hm⟩
    obtain ⟨loc, dom, tld, rfl, h⟩ := (matches_emailPattern w).mp hm
    exact ⟨p, loc, dom, tld, r, by simp, h⟩
  · rintro ⟨p, loc, dom, tld, r, rfl, h⟩
    exact ⟨p, loc ++ '@' :: dom ++ '.' :: tld, r, by simp,
      (matches_emailPattern _).mpr ⟨loc, dom, tld, rfl, h⟩⟩

/-- The trimmed value is empty exactly when the value consists of white space only. -/
theorem jsTrim_eq_empty_iff (v : String) :
    jsTrim v = "" ↔ ∀ c ∈ v.data, isWhiteSpace c = true := by
  have h1 : jsTrim v = "" ↔ (v.data.dropWhile isWhiteSpace).rdropWhile isWhiteSpace = [] := by
    unfold jsTrim
    constructor
    · intro h
      exact congrArg String.data h
    · intro h
      rw [h]
  rw [h1, List.rdropWhile_eq_nil_iff]
  constructor
  · intro h c hc
    by_contra hcn
    have hne : v.data.dropWhile isWhiteSpace ≠ [] := by
      intro h0
      exact hcn (List.dropWhile_eq_nil_iff.mp h0 c hc)
    have hhead := List.head_dropWhile_not isWhiteSpace v.data hne
    have := h _ (List.head_mem hne)
    rw [this] at hhead
    cases hhead
  · intro h c hc
    exact h c ((List.dropWhile_sublist _).subset hc)

theorem validateFormField_of_bad (f : Field)
    (h : jsTrim f.value = "" ∨
      (f.type = "email" ∧ regexTest emailPattern (jsTrim f.value).data = false)) :
    validateFormField (some f) = (false, some { f with ariaInvalid := some "true" }) := by
  unfold validateFormField
  by_cases h1 : jsTrim f.value = ""
  · simp [h1]
  · rcases h with h | h
    · exact absurd h h1
    · simp [h1, h.1, h.2]

theorem validateFormField_of_good (f : Field)
    (h : ¬ (jsTrim f.value = "" ∨
      (f.type = "email" ∧ regexTest emailPattern (jsTrim f.value).data = false))) :
    validateFormField (some f) = (true, some { f with ariaInvalid := none }) := by
  unfold validateFormField
  push_neg at h
  obtain ⟨h1, h2⟩ := h
  by_cases ht : f.type = "email"
  · simp [h1, ht, h2 ht]
  · simp [h1, ht]

theorem validateFormField_false_marks (f : Field)
    (h : (validateFormField (some f)).1 = false) :
    validateFormField (some f) = (false, some { f with ariaInvalid := some "true" }) := by
  by_cases hb : jsTrim f.value = "" ∨
      (f.type = "email" ∧ regexTest emailPattern (jsTrim f.value).data = false)
  · exact validateFormField_of_bad f hb
  · rw [validateFormField_of_good f hb] at h
    cases h

theorem validateFormField_true_clears (x : Option Field)
    (h : (validateFormField x).1 = true) :
    ∃ f, x = some f ∧ validateFormField x = (true, some { f with ariaInvalid := none }) := by
  cases x with
  | none => cases h
  | some f =>
    refine ⟨f, rfl, ?_⟩
    by_cases hb : jsTrim f.value = "" ∨
        (f.type = "email" ∧ regexTest emailPattern (jsTrim f.value).data = false)
    · rw [validateFormField_of_bad f hb] at h
      cases h
    · exact validateFormField_of_good f hb

/-- C6: for every field, `validateFormField` returns false and leaves the field with
aria-invalid="true" exactly when the trimmed value is empty, or the type is "email" and the
trimmed value does not match the email pattern, that is, contains no local part, at sign
and dotted domain whose parts are non-empty and free of white space and at signs; in every
other case it returns true and leaves the field without aria-invalid; for an absent field
it returns false. -/
theorem validateFormField_spec (f : Field) :
    ((validateFormField (some f)).1 = false ↔
      (jsTrim f.value = "" ∨ (f.type = "email" ∧ ¬ ContainsEmail (jsTrim f.value).data))) ∧
    ((jsTrim f.value = "" ∨ (f.type = "email" ∧ ¬ ContainsEmail (jsTrim f.value).data)) →
      validateFormField (some f) = (false, some { f with ariaInvalid := some "true" })) ∧
    (¬ (jsTrim f.value = "" ∨ (f.type = "email" ∧ ¬ ContainsEmail (jsTrim f.value).data)) →
      validateFormField (some f) = (true, some { f with ariaInvalid := none })) ∧
    (validateFormField none).1 = false := by
  have hiff : (jsTrim f.value = "" ∨ (f.type = "email" ∧ ¬ ContainsEmail (jsTrim f.value).data))
      ↔ (jsTrim f.value = "" ∨
        (f.type = "email" ∧ regexTest emailPattern (jsTrim f.value).data = false)) := by
    rw [← regexTest_emailPattern_iff, Bool.not_eq_true]
  refine ⟨?_, ?_, ?_, rfl⟩
  · rw [hiff]
    constructor
    · intro h
      by_contra hb
      rw [validateFormField_of_good f hb] at h
      cases h
    · intro hb
      rw [validateFormField_of_bad f hb]
  · intro hb
    exact validateFormField_of_bad f (hiff.mp hb)
  · intro hb
    exact validateFormField_of_good f (fun h => hb (hiff.mpr h))

theorem validateFormField_spec_witness :
    validateFormField (some ⟨"not-an-email", "email", "", none⟩)
      = (false, some ⟨"not-an-email", "email", "", some "true"⟩) ∧
    validateFormField (some ⟨" a@b.com ", "email", "", some "true"⟩)
      = (true, some ⟨" a@b.com ", "email", "", none⟩) :=
  ⟨(validateFormField_spec ⟨"not-an-email", "email", "", none⟩).2.1
      (Or.inr ⟨rfl, fun h => by
        have h2 := (regexTest_emailPattern_iff _).mpr h
        revert h2
        decide⟩),
   (validateFormField_spec ⟨" a@b.com ", "email", "", some "true"⟩).2.2.1
      (fun h => by
        rcases h with h | ⟨_, h⟩
        · revert h
          decide
        · exact h ((regexTest_emailPattern_iff _).mp (by decide)))⟩

/-- The pattern carries no anchors: an email field whose trimmed value merely contains an
address passes. -/
theorem validateFormField_embedded_address :
    (validateFormField (some ⟨"x y@z.w q", "email", "", none⟩)).1 = true := by
  decide

/-! ## Contact form: validation gate (C7) -/

theorem mem_classAdd (classes : List String) (c : String) : c ∈ classAdd classes c := by
  unfold classAdd
  split_ifs with h
  · exact h
  · simp

theorem not_mem_classAdd_classRemove (classes : List String) (c d : String) (h : c ≠ d) :
    c ∉ classAdd (classRemove classes [c]) d := by
  unfold classAdd classRemove
  split_ifs <;> simp [h]

theorem submitBegin_of_invalid (f : FormState)
    (h : ¬ ((validateFormField f.nameField).1 = true ∧
            (validateFormField f.emailField).1 = true ∧
            (validateFormField f.messageField).1 = true)) :
    submitBegin f =
      ({ f with nameField := (validateFormField f.nameField).2,
                emailField := (validateFormField f.emailField).2,
                messageField := (validateFormField f.messageField).2,
                formStatus :=
                  { textContent := invalidMessage,
                    classes := classAdd (classRemove f.formStatus.classes
                      ["success", "error"]) "error" } }, none) := by
  unfold submitBegin
  have hc : (!(validateFormField f.nameField).1 || !(validateFormField f.emailField).1 ||
      !(validateFormField f.messageField).1) = true := by
    cases h1 : (validateFormField f.nameField).1 <;>
      cases h2 : (validateFormField f.emailField).1 <;>
      cases h3 : (validateFormField f.messageField).1 <;> simp_all
  simp only [hc, if_true]

theorem submitBegin_of_valid (f : FormState) (n e m : Field)
    (hn : validateFormField f.nameField = (true, some n))
    (he : validateFormField f.emailField = (true, some e))
    (hm : validateFormField f.messageField = (true, some m)) :
    submitBegin f =
      ({ f with nameField := some n, emailField := some e, messageField := some m,
                formStatus :=
                  { textContent := pendingMessage,
                    classes := classAdd (classRemove f.formStatus.classes
                      ["success", "error"]) "pending" },
                submitButton := f.submitButton.map fun _ => { disabled := some "true" } },
       some { url := formEndpoint, method := "POST",
              headers := [("Content-Type", "application/json")],
              body := jsonStringifyPayload (jsTrim n.value) (jsTrim e.value)
                (jsTrim m.value) }) := by
  unfold submitBegin
  simp [hn, he, hm]

theorem submitHandler_of_invalid (f : FormState) (net : Request → FetchOutcome)
    (h : ¬ ((validateFormField f.nameField).1 = true ∧
            (validateFormField f.emailField).1 = true ∧
            (validateFormField f.messageField).1 = true)) :
    submitHandler f net = ((submitBegin f).1, []) := by
  unfold submitHandler
  rw [submitBegin_of_invalid f h]

theorem submitHandler_of_valid (f : FormState) (net : Request → FetchOutcome)
    (h : (validateFormField f.nameField).1 = true ∧
         (validateFormField f.emailField).1 = true ∧
         (validateFormField f.messageField).1 = true) :
    ∃ n e m req, f.nameField = some n ∧ f.emailField = some e ∧ f.messageField = some m ∧
      req = { url := formEndpoint, method := "POST",
              headers := [("Content-Type", "application/json")],
              body := jsonStringifyPayload (jsTrim n.value) (jsTrim e.value)
                (jsTrim m.value) } ∧
      submitBegin f =
        ({ f with nameField := some { n with ariaInvalid := none },
                  emailField := some { e with ariaInvalid := none },
                  messageField := some { m with ariaInvalid := none },
                  formStatus :=
                    { textContent := pendingMessage,
                      classes := classAdd (classRemove f.formStatus.classes
                        ["success", "error"]) "pending" },
                  submitButton := f.submitButton.map fun _ => { disabled := some "true" } },
         some req) ∧
      submitHandler f net = (submitEnd (submitBegin f).1 (net req), [req]) := by
  obtain ⟨n, hn, hvn⟩ := validateFormField_true_clears _ h.1
  obtain ⟨e, he, hve⟩ := validateFormField_true_clears _ h.2.1
  obtain ⟨m, hm, hvm⟩ := validateFormField_true_clears _ h.2.2
  have hb := submitBegin_of_valid f _ _ _ hvn hve hvm
  refine ⟨n, e, m, _, hn, he, hm, rfl, hb, ?_⟩
  unfold submitHandler
  rw [hb]

/-- C7: for every content of the name, email and message fields, the submit handler issues
a network call if and only if all three fields pass `validateFormField`; when at least one
fails, no call is made, the submit control is left as it was (not disabled), the status
text is the guidance message with class "error", and every failing field carries
aria-invalid="true"; when all pass, exactly one POST to the form endpoint is issued whose
JSON body holds the trimmed name, email and message; for "A", "a@b.com", "hi" the body is
the text given in the specification. -/
theorem submitHandler_validation_gate (f : FormState) (net : Request → FetchOutcome) :
    ((submitHandler f net).2 ≠ [] ↔
      ((validateFormField f.nameField).1 = true ∧
       (validateFormField f.emailField).1 = true ∧
       (validateFormField f.messageField).1 = true)) ∧
    (¬ ((validateFormField f.nameField).1 = true ∧
        (validateFormField f.emailField).1 = true ∧
        (validateFormField f.messageField).1 = true) →
      (submitHandler f net).2 = [] ∧
      (submitHandler f net).1.submitButton = f.submitButton ∧
      (submitHandler f net).1.formStatus.textContent
        = "Please complete all required fields with valid information." ∧
      "error" ∈ (submitHandler f net).1.formStatus.classes ∧
      (∀ x, f.nameField = some x → (validateFormField (some x)).1 = false →
        (submitHandler f net).1.nameField = some { x with ariaInvalid := some "true" }) ∧
      (∀ x, f.emailField = some x → (validateFormField (some x)).1 = false →
        (submitHandler f net).1.emailField = some { x with ariaInvalid := some "true" }) ∧
      (∀ x, f.messageField = some x → (validateFormField (some x)).1 = false →
        (submitHandler f net).1.messageField = some { x with ariaInvalid := some "true" })) ∧
    (((validateFormField f.nameField).1 = true ∧
      (validateFormField f.emailField).1 = true ∧
      (validateFormField f.messageField).1 = true) →
      ∃ n e m, f.nameField = some n ∧ f.emailField = some e ∧ f.messageField = some m ∧
        (submitHandler f net).2 =
          [{ url := "https://formspree.io/f/maykgeko", method := "POST",
             headers := [("Content-Type", "application/json")],
             body := jsonStringifyPayload (jsTrim n.value) (jsTrim e.value)
               (jsTrim m.value) }]) ∧
    (submitHandler ⟨some ⟨"A", "text", "", none⟩, some ⟨"a@b.com", "email", "", none⟩,
        some ⟨"hi", "textarea", "", none⟩, ⟨"", []⟩, some ⟨none⟩⟩ net).2.map Request.body
      = ["\x7b\"name\":\"A\",\"email\":\"a@b.com\",\"message\":\"hi\"\x7d"] := by
  refine ⟨?_, ?_, ?_, ?_⟩
  · constructor
    · intro h
      by_contra hv
      rw [submitHandler_of_invalid f net hv] at h
      exact h rfl
    · intro hv
      obtain ⟨n, e, m, req, _, _, _, _, _, hs⟩ := submitHandler_of_valid f net hv
      rw [hs]
      simp
  · intro hv
    rw [submitHandler_of_invalid f net hv, submitBegin_of_invalid f hv]
    refine ⟨rfl, rfl, rfl, mem_classAdd _ _, ?_, ?_, ?_⟩
    · intro x hx hf
      show (validateFormField f.nameField).2 = _
      rw [hx, validateFormField_false_marks x hf]
    · intro x hx hf
      show (validateFormField f.emailField).2 = _
      rw [hx, validateFormField_false_marks x hf]
    · intro x hx hf
      show (validateFormField f.messageField).2 = _
      rw [hx, validateFormField_false_marks x hf]
  · intro hv
    obtain ⟨n, e, m, req, hn, he, hm, hreq, _, hs⟩ := submitHandler_of_valid f net hv
    refine ⟨n, e, m, hn, he, hm, ?_⟩
    rw [hs, hreq]
    rfl
  · obtain ⟨n, e, m, req, hn, he, hm, hreq, _, hs⟩ := submitHandler_of_valid
      ⟨some ⟨"A", "text", "", none⟩, some ⟨"a@b.com", "email", "", none⟩,
        some ⟨"hi", "textarea", "", none⟩, ⟨"", []⟩, some ⟨none⟩⟩ net (by decide)
    rw [hs, hreq]
    cases hn
    cases he
    cases hm
    show [jsonStringifyPayload (jsTrim "A") (jsTrim "a@b.com") (jsTrim "hi")] = _
    decide

theorem submitHandler_validation_gate_witness :
    (submitHandler ⟨some ⟨"", "text", "", none⟩, some ⟨"a@b.com", "email", "", none⟩,
        some ⟨"hi", "textarea", "", none⟩, ⟨"", []⟩, some ⟨none⟩⟩
        (fun _ => .response true)).2 = [] ∧
    (submitHandler ⟨some ⟨"", "text", "", none⟩, some ⟨"a@b.com", "email", "", none⟩,
        some ⟨"hi", "textarea", "", none⟩, ⟨"", []⟩, some ⟨none⟩⟩
        (fun _ => .response true)).1.nameField = some ⟨"", "text", "", some "true"⟩ :=
  have h := (submitHandler_validation_gate
    ⟨some ⟨"", "text", "", none⟩, some ⟨"a@b.com", "email", "", none⟩,
      some ⟨"hi", "textarea", "", none⟩, ⟨"", []⟩, some ⟨none⟩⟩
    (fun _ => .response true)).2.1 (by decide)
  ⟨h.1, h.2.2.2.2.1 _ rfl (by decide)⟩

/-! ## Contact form: outcome of a valid submission (C8) -/

/-- C8: for every submission whose three fields are valid, one request is sent, during
which the status carries class "pending" and an existing submit control is disabled; if
the response is ok, the status text becomes the success message with class "success" and
the three fields are reset to their default values; if the response is not ok or the
request throws, the status text becomes the failure message with class "error" and the
fields keep their values; in both outcomes class "pending" is removed and the submit
control ends up without the disabled attribute. -/
theorem submitHandler_outcome (f : FormState) (net : Request → FetchOutcome)
    (hv : (validateFormField f.nameField).1 = true ∧
          (validateFormField f.emailField).1 = true ∧
          (validateFormField f.messageField).1 = true) :
    ∃ n e m req, f.nameField = some n ∧ f.emailField = some e ∧ f.messageField = some m ∧
      (submitHandler f net).2 = [req] ∧
      "pending" ∈ (submitBegin f).1.formStatus.classes ∧
      (∀ b, f.submitButton = some b →
        (submitBegin f).1.submitButton = some { disabled := some "true" }) ∧
      (net req = .response true →
        (submitHandler f net).1.formStatus.textContent
          = "Message delivered! I’ll get back to you shortly." ∧
        "success" ∈ (submitHandler f net).1.formStatus.classes ∧
        (submitHandler f net).1.nameField
          = some { n with value := n.defaultValue, ariaInvalid := none } ∧
        (submitHandler f net).1.emailField
          = some { e with value := e.defaultValue, ariaInvalid := none } ∧
        (submitHandler f net).1.messageField
          = some { m with value := m.defaultValue, ariaInvalid := none }) ∧
      ((net req = .response false ∨ net req = .rejected) →
        (submitHandler f net).1.formStatus.textContent
          = "Something went wrong. Please try again in a moment." ∧
        "error" ∈ (submitHandler f net).1.formStatus.classes ∧
        (submitHandler f net).1.nameField = some { n with ariaInvalid := none } ∧
        (submitHandler f net).1.emailField = some { e with ariaInvalid := none } ∧
        (submitHandler f net).1.messageField = some { m with ariaInvalid := none }) ∧
      "pending" ∉ (submitHandler f net).1.formStatus.classes ∧
      (submitHandler f net).1.submitButton = f.submitButton.map (fun _ => { disabled := none })
      := by
  obtain ⟨n, e, m, req, hn, he, hm, _, hb, hs⟩ := submitHandler_of_valid f net hv
  refine ⟨n, e, m, req, hn, he, hm, by rw [hs], ?_, ?_, ?_, ?_, ?_, ?_⟩
  · rw [hb]
    exact mem_classAdd _ _
  · intro b hbtn
    rw [hb]
    show Option.map _ f.submitButton = _
    rw [hbtn]
    rfl
  · intro hok
    rw [hs, hb, hok]
    exact ⟨rfl, mem_classAdd _ _, rfl, rfl, rfl⟩
  · intro hfail
    rw [hs, hb]
    rcases hfail with h | h <;> rw [h] <;> exact ⟨rfl, mem_classAdd _ _, rfl, rfl, rfl⟩
  · rw [hs, hb]
    cases hnet : net req with
    | response ok =>
      cases ok
      · exact not_mem_classAdd_classRemove _ _ _ (by decide)
      · exact not_mem_classAdd_classRemove _ _ _ (by decide)
    | rejected => exact not_mem_classAdd_classRemove _ _ _ (by decide)
  · rw [hs, hb]
    cases hnet : net req with
    | response ok =>
      cases ok <;> cases hbtn : f.submitButton <;> simp [submitEnd, hbtn]
    | rejected => cases hbtn : f.submitButton <;> simp [submitEnd, hbtn]

theorem submitHandler_outcome_witness :
    "pending" ∉ (submitHandler ⟨some ⟨"A", "text", "", none⟩,
        some ⟨"a@b.com", "email", "", none⟩, some ⟨"hi", "textarea", "", none⟩, ⟨"", []⟩,
        some ⟨none⟩⟩ (fun _ => .rejected)).1.formStatus.classes ∧
    (submitHandler ⟨some ⟨"A", "text", "", none⟩,
        some ⟨"a@b.com", "email", "", none⟩, some ⟨"hi", "textarea", "", none⟩, ⟨"", []⟩,
        some ⟨none⟩⟩ (fun _ => .rejected)).1.submitButton = some ⟨none⟩ := by
  obtain ⟨_, _, _, _, _, _, _, _, _, _, _, _, h2, h3⟩ := submitHandler_outcome
    ⟨some ⟨"A", "text", "", none⟩, some ⟨"a@b.com", "email", "", none⟩,
      some ⟨"hi", "textarea", "", none⟩, ⟨"", []⟩, some ⟨none⟩⟩ (fun _ => .rejected)
    (by decide)
  exact ⟨h2, h3⟩

end Script
